import Mathlib

/-!
Verification of the qwc-data-service Dataset Features Provider against its
natural-language specification.

The definitions below are a shallow embedding of the Python source
(`src/dataset_features_provider.py`, `src/data_service.py` and the newer
generation `src/src/dataset_features_provider.py`).  Python values decoded
from JSON are modelled by `PyVal`; Python exceptions by `PyExn` and the
`Except` monad; mutation of the `sql`/`params`/`errors` accumulators is
modelled by explicit state passing.  Database round trips and a few Python
builtins whose exact behaviour is irrelevant to the claims (the DB cast,
`json.dumps`, `float()` on strings, `ast.literal_eval`) are abstracted as
oracle fields of a context structure; everything quantifies over the oracle.
-/

/-- A Python value as produced by `json.loads` (plus dicts used for configs).
Floats are modelled as rationals; none of the verified code performs float
arithmetic, values only flow into parameter maps unchanged. -/
inductive PyVal where
  | none : PyVal
  | bool (b : Bool) : PyVal
  | int (n : Int) : PyVal
  | float (q : Rat) : PyVal
  | str (s : String) : PyVal
  | list (xs : List PyVal) : PyVal
  | dict (d : List (String × PyVal)) : PyVal

/-- Python exception kinds raised by the embedded code. -/
inductive PyExn where
  | attributeError
  | indexError
  | typeError
  | valueError
  | keyError
deriving DecidableEq, Repr

namespace PyVal

/-- `type(v) is list` in Python. -/
def isList : PyVal → Bool
  | .list _ => true
  | _ => false

/-- `type(v) is str` in Python. -/
def isStr : PyVal → Bool
  | .str _ => true
  | _ => false

/-- Python truthiness (`bool(v)`). -/
def truthy : PyVal → Bool
  | .none => false
  | .bool b => b
  | .int n => n != 0
  | .float q => q != 0
  | .str s => s != ""
  | .list xs => !xs.isEmpty
  | .dict d => !d.isEmpty

end PyVal

mutual

/-- Python `repr` of a value, best effort (string escaping and float
rendering are approximated; only cosmetic, messages built from it are never
inspected by the claims). -/
def PyVal.pyRepr : PyVal → String
  | .none => "None"
  | .bool b => if b then "True" else "False"
  | .int n => toString n
  | .float q => toString q
  | .str s => "'" ++ s ++ "'"
  | .list xs => "[" ++ String.intercalate ", " (pyReprList xs) ++ "]"
  | .dict d => "\x7b" ++ String.intercalate ", " (pyReprDict d) ++ "\x7d"

def pyReprList : List PyVal → List String
  | [] => []
  | x :: xs => x.pyRepr :: pyReprList xs

def pyReprDict : List (String × PyVal) → List String
  | [] => []
  | (k, v) :: kvs => ("'" ++ k ++ "': " ++ v.pyRepr) :: pyReprDict kvs

end

/-- Python `str(v)`: identity on strings, `repr` otherwise (for the value
 shapes occurring here). -/
def PyVal.pyStr : PyVal → String
  | .str s => s
  | v => v.pyRepr

/-- `"%s" % v` for an optional value (Python prints `None`). -/
def optStr : Option Int → String
  | Option.none => "None"
  | Option.some n => toString n

/-! ## `DatasetFeaturesProvider.transform_geom_sql`

```python
def transform_geom_sql(self, geom_sql, geom_srid, target_srid):
    if geom_sql is None or geom_srid is None or geom_srid == target_srid:
        pass
    else:
        geom_sql = "ST_Transform(%s, %s)" % (geom_sql, target_srid)
    return geom_sql
```
-/
def transform_geom_sql (geom_sql : Option String) (geom_srid target_srid : Option Int) :
    Option String :=
  if geom_sql = Option.none ∨ geom_srid = Option.none ∨ geom_srid = target_srid then
    geom_sql
  else
    match geom_sql with
    | Option.none => Option.none
    | Option.some s => Option.some ("ST_Transform(" ++ s ++ ", " ++ optStr target_srid ++ ")")

/-! ## `DataService.show` (`src/data_service.py`, lines 105-139)

The provider resolved for `(identity, dataset)` is `none` when the dataset is
unknown or not permitted.  The provider's methods used by `show` are
abstracted as oracle fields. -/

/-- The provider object as consumed by `DataService.show`; its methods are
oracles. -/
structure ProviderStub where
  parse_crs : String → Option Int
  readable : Bool
  showFeature : PyVal → Option Int → Option PyVal

/-- Outcome of `DataService.show`: the various returned dicts. -/
inductive ShowOutcome where
  | invalidCrs
  | notReadable
  | feature (f : PyVal)
  | featureNotFound
  | datasetNotFound

/-- Tail of `DataService.show` after the CRS block (`if dataset_features_provider
is not None: ... else: ...`). -/
def dataservice_show_rest (provider : Option ProviderStub) (id : PyVal)
    (srid : Option Int) : ShowOutcome :=
  match provider with
  | Option.none => .datasetNotFound
  | Option.some p =>
    if ¬ p.readable then .notReadable
    else
      match p.showFeature id srid with
      | Option.some f => .feature f
      | Option.none => .featureNotFound

/-- `DataService.show(identity, dataset, id, crs)`.  Note the source calls
`dataset_features_provider.parse_crs(crs)` before checking the provider for
`None`; attribute access on `None` raises `AttributeError`. -/
def dataservice_show (provider : Option ProviderStub) (id : PyVal)
    (crs : Option String) : Except PyExn ShowOutcome :=
  match crs with
  | Option.none => .ok (dataservice_show_rest provider id Option.none)
  | Option.some c =>
    match provider with
    | Option.none => .error .attributeError
    | Option.some p =>
      match p.parse_crs c with
      | Option.none => .ok .invalidCrs
      | Option.some srid => .ok (dataservice_show_rest provider id (Option.some srid))

/-! ## `DatasetFeaturesProvider.validate` (error-category orchestration)

```python
errors = OrderedDict()
validation_errors = self.validate_geo_json(feature, new_feature)
if validation_errors:
    errors['validation_errors'] = validation_errors
else:
    geometry_errors = self.validate_geometry(feature)
    if geometry_errors:
        errors['geometry_errors'] = geometry_errors
    else:
        fields_errors = self.validate_fields(feature)
        if fields_errors:
            errors['data_errors'] = fields_errors
return errors
```

The three stage methods perform database I/O; their results are parameters
here, so "a later stage is not attempted" appears as the result being
independent of the later stages' values. -/
def validateCombine {α : Type} (validation_errors geometry_errors data_errors : List α) :
    List (String × List α) :=
  if ¬ validation_errors.isEmpty then [("validation_errors", validation_errors)]
  else if ¬ geometry_errors.isEmpty then [("geometry_errors", geometry_errors)]
  else if ¬ data_errors.isEmpty then [("data_errors", data_errors)]
  else []

/-! ## `DatasetFeaturesProvider.has_z` and the geometry-type comparison

```python
def has_z(self, coordinates):
    if type(coordinates[0]) is list:
        return self.has_z(coordinates[0])
    else:
        return len(coordinates) == 3
```
`coordinates[0]` on an empty list raises `IndexError`; `coordinates[0]` on a
non-list raises `TypeError` (only reachable at the top call). -/
def has_z : PyVal → Except PyExn Bool
  | .list [] => .error .indexError
  | .list (x :: xs) =>
    if x.isList then has_z x
    else .ok ((x :: xs).length == 3)
  | _ => .error .typeError

/-- `validate_geometry`, Z-suffix step: `geom_type += "Z"` when
`has_z(coordinates)` holds (source lines 829-832). -/
def detected_geom_type (dbGeomType : String) (coordinates : PyVal) :
    Except PyExn String := do
  let z ← has_z coordinates
  .ok (if z then dbGeomType ++ "Z" else dbGeomType)

/-- `validate_geometry`, final type check (source lines 846-853): an error is
reported iff the configured type is not the wildcard and differs from the
detected type. -/
def geom_type_mismatch (geometry_type detected : String) : Bool :=
  geometry_type != "Geometry" && detected != geometry_type

/-! ## `DatasetFeaturesProvider.index`: post-fetch limit/offset windowing
(`src/src/dataset_features_provider.py`, lines 198-238)

```python
start = offset or 0
end = (offset + limit) if limit else None
features = []
for (idx, row) in enumerate(result):
    if idx < start or (end is not None and idx >= end):
        features.append({})            # dummy placeholder
        continue
    features.append(self.feature_from_query(dict(row), srid, filter_fields))
...
features_subset = features[start:end]
return { ..., 'features': features_subset,
         'numberMatched': len(features),
         'numberReturned': len(features_subset) }
```

The database rows and `feature_from_query` are abstracted as a row list and a
conversion function. -/

structure IndexResult where
  /-- the internal `features` list (one element per fetched row). -/
  internalFeatures : List PyVal
  /-- `features_subset`, the returned `features` entry. -/
  features : List PyVal
  numberMatched : Nat
  numberReturned : Nat

/-- Python list slicing `xs[s:e]` for non-negative bounds. -/
def pySlice (xs : List PyVal) (s : Nat) : Option Nat → List PyVal
  | Option.none => xs.drop s
  | Option.some e => (xs.take e).drop s

/-- `idx < start or (end is not None and idx >= end)`. -/
def outsideWindow (start : Nat) (stop : Option Nat) (idx : Nat) : Bool :=
  idx < start ||
    (match stop with | Option.some e => decide (idx ≥ e) | Option.none => false)

/-- The `for (idx, row) in enumerate(result)` loop body: a dummy `{}` for a
row outside the `[start, end)` window, `feature_from_query` (abstracted as
`mk`) inside it. -/
def windowFeatures (mk : PyVal → PyVal) (start : Nat) (stop : Option Nat) :
    Nat → List PyVal → List PyVal
  | _, [] => []
  | idx, row :: rest =>
    (if outsideWindow start stop idx then .dict [] else mk row) ::
      windowFeatures mk start stop (idx + 1) rest

/-- The windowing portion of `index`.  `offset`/`limit` are the keyword
arguments (Python `None` = `Option.none`); `mk` stands for
`feature_from_query`.  `offset + limit` with `offset = None` raises
`TypeError`. -/
def indexWindow (rows : List PyVal) (mk : PyVal → PyVal)
    (limit offset : Option Nat) : Except PyExn IndexResult := do
  let start : Nat := offset.getD 0
  let stop : Option Nat ←
    match limit with
    | Option.none => pure Option.none
    | Option.some l =>
      if l = 0 then pure Option.none
      else
        match offset with
        | Option.none => throw .typeError
        | Option.some o => pure (Option.some (o + l))
  let features : List PyVal := windowFeatures mk start stop 0 rows
  let subset := pySlice features start stop
  pure {
    internalFeatures := features
    features := subset
    numberMatched := features.length
    numberReturned := subset.length
  }

/-! ## `DatasetFeaturesProvider.parse_filter` / `__parse_filter_inner`
(`src/src/dataset_features_provider.py`, lines 499-627)

The JSON string input is represented post-`json.loads`: `FilterInput.empty`
is a falsy input string, `FilterInput.invalidJson` a `JSONDecodeError`, and
`FilterInput.decoded v` a successful decode to `v`.  The mutated accumulators
`sql`, `params`, `errors` are threaded as `PFState`; an early `return` of the
Python function is modelled by returning the state unchanged from that level;
Python exceptions (`entry[1].upper()` on a non-string, `filterarray[0]` on an
empty array) are `Except.error`. -/

/-! Python string methods used by the parser, implemented over the character
list so they compute inside the kernel.  `upper`/`strip` are modelled for
ASCII — every operator and keyword the parser compares against is ASCII. -/

/-- `str.upper()` (ASCII). -/
def pyCharUpper (c : Char) : Char :=
  if c.toNat ≥ 97 ∧ c.toNat ≤ 122 then Char.ofNat (c.toNat - 32) else c

def pyUpper (s : String) : String := ⟨s.data.map pyCharUpper⟩

def pyIsSpace (c : Char) : Bool := c = ' ' ∨ c = '\t' ∨ c = '\n' ∨ c = '\r'

/-- `str.strip()`. -/
def pyStrip (s : String) : String :=
  ⟨((s.data.dropWhile pyIsSpace).reverse.dropWhile pyIsSpace).reverse⟩

/-- `str.startswith("?")`. -/
def pyStartsWithQ (s : String) : Bool :=
  match s.data with
  | [] => false
  | c :: _ => c = '?'

/-- `str[1:]`. -/
def pyDrop1 (s : String) : String :=
  match s.data with
  | [] => ⟨[]⟩
  | _ :: cs => ⟨cs⟩

/-- The provider fields consulted by the filter parser. -/
structure FilterCtx where
  primary_key : String
  attributes : List String

def CONCAT_OPERATORS : List String := ["AND", "OR"]

def OPERATORS : List String :=
  ["=", "!=", "<>", "<", ">", "<=", ">=", "LIKE", "ILIKE", "IS", "IS NOT"]

/-- `type(value) in VALUE_TYPES` with
`VALUE_TYPES = [int, float, str, type(None), bool]`. -/
def isValueType : PyVal → Bool
  | .int _ => true
  | .float _ => true
  | .str _ => true
  | .none => true
  | .bool _ => true
  | _ => false

/-- The three mutable accumulators of `__parse_filter_inner`.  `params` is the
insertion-ordered dict; keys are always fresh (`"v%d" % len(params)`), so an
association list is an exact model. -/
structure PFState where
  sql : List String
  params : List (String × PyVal)
  errors : List String

def PFState.addErr (st : PFState) (m : String) : PFState :=
  { st with errors := st.errors ++ [m] }

def PFState.addSql (st : PFState) (t : String) : PFState :=
  { st with sql := st.sql ++ [t] }

/-- Emit the SQL fragment and bound parameter for an accepted leaf
(`sql.append('"%s" %s :v%d' ...)`; `params["v%d" % idx] = value`). -/
def PFState.addLeaf (st : PFState) (column op : String) (value : PyVal) : PFState :=
  let idx := st.params.length
  { st with
    sql := st.sql ++ ["\"" ++ column ++ "\" " ++ op ++ " :v" ++ toString idx]
    params := st.params ++ [("v" ++ toString idx, value)] }

/-- Result of processing one entry of the `for entry in filterarray` loop of
`__parse_filter_inner`: `stop` models the early `return` after recording an
error; `cont` models falling through to the next iteration, with
`advance = false` for the `continue` of a soft-dropped leaf (which skips the
`i += 1` at the bottom of the loop body). -/
inductive StepRes where
  | stop (st : PFState)
  | cont (st : PFState) (advance : Bool)

mutual

/-- One iteration of the loop body of `__parse_filter_inner`.  `n` is
`len(filterarray)` of the level being processed, `i` the loop counter. -/
def parseFilterEntry (ctx : FilterCtx) (n i : Nat) (st : PFState) :
    PyVal → Except PyExn StepRes
  | .str s =>
    let e := pyUpper s
    if e ∉ CONCAT_OPERATORS then
      .ok (.stop (st.addErr ("Invalid concatenation operator '" ++ e ++ "'")))
    else if i % 2 ≠ 1 ∨ i = n - 1 then
      .ok (.stop (st.addErr ("Incorrect concatenation operator position for '" ++ e ++ "'")))
    else
      .ok (.cont (st.addSql e) true)
  | .list [] => .ok (.stop (st.addErr "Empty list in expression"))
  | .list (l0 :: ltl) =>
    if l0.isList then do
      -- nested expression: `sql.append("("); recurse; sql.append(")")`
      let st1 ← parseFilterEntries ctx (l0 :: ltl) (l0 :: ltl).length 0 (st.addSql "(")
      pure (.cont (st1.addSql ")") true)
    else
      match ltl with
      | [o, v] =>
        match l0 with
        | .str cn0 =>
          let soft := pyStartsWithQ cn0
          let cn := if soft then pyDrop1 cn0 else cn0
          if cn ≠ ctx.primary_key ∧ cn ∉ ctx.attributes then
            if soft then
              -- `continue`: skip the leaf, `i` not incremented
              .ok (.cont st false)
            else
              .ok (.stop (st.addErr ("Column name not found or permission error in " ++
                (PyVal.list [l0, o, v]).pyStr)))
          else
            match o with
            | .str o0 =>
              let op := pyStrip (pyUpper o0)
              if op ∉ OPERATORS then
                .ok (.stop (st.addErr ("Invalid operator in " ++ (PyVal.list [l0, o, v]).pyStr)))
              else if ¬ isValueType v then
                .ok (.stop (st.addErr ("Invalid value type in " ++ (PyVal.list [l0, o, v]).pyStr)))
              else
                match v with
                | .none =>
                  let op2 := if op = "=" then "IS"
                             else if op = "!=" then "IS NOT" else op
                  .ok (.cont (st.addLeaf cn op2 .none) true)
                | _ =>
                  if op = "IS" ∨ op = "IS NOT" then
                    .ok (.stop (st.addErr ("Invalid operator in " ++ (PyVal.list [l0, o, v]).pyStr)))
                  else
                    .ok (.cont (st.addLeaf cn op v) true)
            | _ =>
              -- `entry[1].upper()` on a non-string raises before the type check
              .error .attributeError
        | _ => .ok (.stop (st.addErr ("Invalid column name in " ++ (PyVal.list [l0, o, v]).pyStr)))
      | _ =>
        .ok (.stop (st.addErr ("Incorrect number of entries in " ++ (PyVal.list (l0 :: ltl)).pyStr)))
  | other =>
    -- `errors.append("Invalid entry: %s" % entry)` without `return`
    .ok (.cont (st.addErr ("Invalid entry: " ++ other.pyStr)) true)

/-- The `for entry in filterarray` loop of `__parse_filter_inner` over the
remaining entries. -/
def parseFilterEntries (ctx : FilterCtx) :
    List PyVal → Nat → Nat → PFState → Except PyExn PFState
  | [], _, _, st => .ok st
  | entry :: rest, n, i, st => do
    match ← parseFilterEntry ctx n i st entry with
    | .stop st1 => pure st1
    | .cont st1 adv => parseFilterEntries ctx rest n (if adv then i + 1 else i) st1

end

inductive FilterInput where
  | empty
  | invalidJson
  | decoded (v : PyVal)

/-- The three possible non-raising results of `parse_filter`:
`(None, message)`, the empty-but-valid sentinel `("", [])`, and a successful
`(sql_fragment, params)`. -/
inductive ParseResult where
  | perr (msg : String)
  | emptyOk
  | ok (sql_fragment : String) (params : List (String × PyVal))

/-- `parse_filter`.  An empty decoded array raises `IndexError` at
`filterarray[0]`. -/
def parse_filter (ctx : FilterCtx) : FilterInput → Except PyExn ParseResult
  | .empty => .ok (.perr "Empty expression")
  | .invalidJson => .ok (.perr "Invalid JSON")
  | .decoded v =>
    match v with
    | .list [] => .error .indexError
    | .list (e0 :: tl) =>
      let filterarray := if e0.isList then e0 :: tl else [PyVal.list (e0 :: tl)]
      do
        let st ← parseFilterEntries ctx filterarray filterarray.length 0 ⟨[], [], []⟩
        if ¬ st.errors.isEmpty then
          pure (.perr (String.intercalate ";" st.errors))
        else if st.sql.isEmpty then
          pure .emptyOk
        else
          pure (.ok ("(" ++ String.intercalate " " st.sql ++ ")") st.params)
    | _ => .ok (.perr "Not an array")

/-! ## `DatasetFeaturesProvider.__prepare_join_query`
(`src/src/dataset_features_provider.py`, lines 1215-1244)

```python
attributes = []
join_queries = {}
ident = 1
for attribute in self.attributes:
    if filter_fields and attribute not in filter_fields:
        continue
    attributes.append(attribute)
    joinfield = self.fields[attribute].get('joinfield')
    if joinfield and joinfield['table'] not in join_queries:
        jointableconfig = self.jointables[joinfield['table']]
        join_queries[joinfield['table']] = 'LEFT JOIN ...'
        ident += 1
if not self.primary_key in attributes:
    attributes.prepend(self.primary_key)      # AttributeError: no list.prepend
return attributes, "\n".join(join_queries.values())
```
-/

/-- One entry of the `fields` config dict: declared type, constraints dict and
the optional `joinfield` dict. -/
structure FieldMeta where
  data_type : Option String
  constraints : List (String × PyVal)
  joinfield : Option (List (String × PyVal))

/-- `fields[attr]` / `fields.get(attr)` on the config dict. -/
def lookupField (fields : List (String × FieldMeta)) (a : String) : Option FieldMeta :=
  (fields.find? (·.1 = a)).map (·.2)

/-- `d[k]` / `d.get(k)` on a generic dict value. -/
def dictGet (d : List (String × PyVal)) (k : String) : Option PyVal :=
  (d.find? (·.1 = k)).map (·.2)

/-- The provider configuration fields used by the join/projection logic. -/
structure ProviderCfg where
  primary_key : String
  attributes : List String
  fields : List (String × FieldMeta)
  /-- jointables: table name → (targetField, joinField). -/
  jointables : List (String × (String × String))

def prepare_join_query (cfg : ProviderCfg) (filter_fields : Option (List String)) :
    Except PyExn (List String × String) := do
  let res ← cfg.attributes.foldlM
    (fun (acc : List String × List (String × String) × Nat) attrName => do
      let (attrs, join_queries, ident) := acc
      let skip := match filter_fields with
        | Option.none => false
        | Option.some ff => !ff.isEmpty && decide (attrName ∉ ff)
      if skip then pure acc
      else do
        let attrs := attrs ++ [attrName]
        let fm ← match lookupField cfg.fields attrName with
          | Option.some fm => pure fm
          | Option.none => throw PyExn.keyError
        match fm.joinfield with
        | Option.none => pure (attrs, join_queries, ident)
        | Option.some jf =>
          if jf.isEmpty then pure (attrs, join_queries, ident)
          else do
            let table ← match dictGet jf "table" with
              | Option.some (.str t) => pure t
              | Option.some _ => throw PyExn.typeError
              | Option.none => throw PyExn.keyError
            if (join_queries.find? (·.1 = table)).isSome then
              pure (attrs, join_queries, ident)
            else do
              let jtc ← match (cfg.jointables.find? (·.1 = table)).map (·.2) with
                | Option.some c => pure c
                | Option.none => throw PyExn.keyError
              let q := "LEFT JOIN \"" ++ table ++ "\" __J" ++ toString ident ++
                " ON __J0." ++ jtc.1 ++ " = __J" ++ toString ident ++ "." ++ jtc.2
              pure (attrs, join_queries ++ [(table, q)], ident + 1))
    (([], [], 1) : List String × List (String × String) × Nat)
  let (attrs, join_queries, _) := res
  if cfg.primary_key ∈ attrs then
    pure (attrs, String.intercalate "\n" (join_queries.map (·.2)))
  else
    -- `attributes.prepend(...)`: Python lists have no `prepend` method
    throw PyExn.attributeError

/-! ## `DatasetFeaturesProvider.validate_fields`
(`src/src/dataset_features_provider.py`, lines 863-1004)

Validates data types and constraints of the GeoJSON feature properties
against the `fields` config metadata, then removes read-only properties
(and hidden ones without a value) and checks required values. -/

/-- A translated error message `self.translator.tr(key) % args`: the
message templates live in locale files, so we keep the key and the
stringified `%`-arguments (the field name always comes first). -/
structure TrMsg where
  key : String
  args : List String
deriving DecidableEq, Repr

/-- `constraints.get(k, d)`. -/
def constraintsGetD (c : List (String × PyVal)) (k : String) (d : PyVal) : PyVal :=
  (dictGet c k).getD d

/-- `constraints.get(k)` where a stored `None` counts as absent: the source
tests `... is not None` right after each `get`. -/
def getNotNone (c : List (String × PyVal)) (k : String) : Option PyVal :=
  match dictGet c k with
  | Option.some PyVal.none => Option.none
  | o => o

/-- `d[k] = v` on a Python dict: overwrite the entry in place when the key
exists, append it otherwise (insertion order). -/
def dictSet (d : List (String × PyVal)) (k : String) (v : PyVal) :
    List (String × PyVal) :=
  if (dictGet d k).isSome then d.map (fun kv => if kv.1 = k then (k, v) else kv)
  else d ++ [(k, v)]

/-- Decimal digit run for `int(str)`. -/
def pyDigits (ds : List Char) : Except PyExn Nat :=
  if ds.isEmpty || !ds.all Char.isDigit then .error PyExn.valueError
  else .ok (ds.foldl (fun acc c => acc * 10 + (c.toNat - 48)) 0)

/-- `int(s)` on a string: strip whitespace, optional sign, decimal digits
(PEP 515 underscore grouping not modeled), `ValueError` otherwise. -/
def pyStrToInt (s : String) : Except PyExn Int :=
  match (pyStrip s).data with
  | '-' :: rest => (pyDigits rest).map (fun n => -(n : Int))
  | '+' :: rest => (pyDigits rest).map (fun n => (n : Int))
  | rest => (pyDigits rest).map (fun n => (n : Int))

/-- `int(v)`: ints pass through, bools are 0/1, floats truncate toward
zero, strings are parsed, everything else raises `TypeError`. -/
def pyIntOf : PyVal → Except PyExn Int
  | .int n => .ok n
  | .bool b => .ok (if b then 1 else 0)
  | .float q => .ok (if 0 ≤ q then q.floor else q.ceil)
  | .str s => pyStrToInt s
  | _ => .error PyExn.typeError

/-- `float(v)`: numbers and bools convert, strings go through the float
parser (an oracle parameter), other types raise `TypeError`. -/
def pyFloatOf (strToFloat : String → Option Rat) : PyVal → Except PyExn Rat
  | .int n => .ok (n : Rat)
  | .float q => .ok q
  | .bool b => .ok (if b then 1 else 0)
  | .str s =>
    match strToFloat s with
    | Option.some q => .ok q
    | Option.none => .error PyExn.valueError
  | _ => .error PyExn.typeError

/-- `x < m` for a Python constraint value `m` (comparing a float against a
non-number raises `TypeError`). -/
def ratLtPy (x : Rat) : PyVal → Except PyExn Bool
  | .int n => .ok (decide (x < (n : Rat)))
  | .float q => .ok (decide (x < q))
  | .bool b => .ok (decide (x < (if b then (1 : Rat) else 0)))
  | _ => .error PyExn.typeError

/-- `x > m` for a Python constraint value `m`. -/
def ratGtPy (x : Rat) : PyVal → Except PyExn Bool
  | .int n => .ok (decide ((n : Rat) < x))
  | .float q => .ok (decide (q < x))
  | .bool b => .ok (decide ((if b then (1 : Rat) else 0) < x))
  | _ => .error PyExn.typeError

/-- `'%d' % v`: ints, bools and floats (truncated toward zero) format,
everything else raises `TypeError`. -/
def pyFmtD : PyVal → Except PyExn String
  | .int n => .ok (toString n)
  | .bool b => .ok (if b then "1" else "0")
  | .float q => .ok (toString (if 0 ≤ q then q.floor else q.ceil))
  | _ => .error PyExn.typeError

/-- `[str(v['value']) for v in constraints.get('values', [])]`: iterating a
non-sequence raises `TypeError`; a dict iterates its keys (strings) and a
non-empty string iterates its characters, either of which raises
`TypeError` at `v['value']`; a list element must be a dict with a `value`
key (`KeyError` when missing, `TypeError` for non-dict elements). -/
def allowedValuesOf : PyVal → Except PyExn (List String)
  | .list items =>
    items.mapM (fun it =>
      match it with
      | .dict d =>
        match dictGet d "value" with
        | Option.some x => .ok x.pyStr
        | Option.none => .error PyExn.keyError
      | _ => .error PyExn.typeError)
  | .str s => if s = "" then .ok [] else .error PyExn.typeError
  | .dict d => if d.isEmpty then .ok [] else .error PyExn.typeError
  | _ => .error PyExn.typeError

/-- Environment of `validate_fields`: the database round trips and the two
stdlib evaluations whose outcome depends on state outside the function. -/
structure ValidateCtx where
  /-- `SELECT (:value)::<data_type> AS value`: `.error ()` models a
  `DataError`/`ProgrammingError` raised by the cast (caught, rolled back to
  the savepoint), `.ok v` the single returned row (`PyVal.none` for SQL
  `NULL`). -/
  cast : String → PyVal → Except Unit PyVal
  /-- `USER-DEFINED` type lookup in `information_schema.columns` (at most
  one row thanks to `LIMIT 1`); `none` models no row, leaving `data_type`
  unchanged. -/
  udt : String → Option String
  /-- `json.dumps(value)`. -/
  jsonDumps : PyVal → String
  /-- `ast.literal_eval(value)` followed by iteration over the result:
  `none` models any exception (the bare `except` catches everything,
  including iterating a non-sequence), `some xs` the iterated elements. -/
  literalEval : PyVal → Option (List PyVal)
  /-- `float(s)` on a string (`none` models `ValueError`). -/
  strToFloat : String → Option Rat

/-- `'None'` or the type name: `%`-formatting of the `data_type` value. -/
def dataTypeStr : Option String → String
  | Option.some t => t
  | Option.none => "None"

/-- `if k in constraints: constraints[k] = int(constraints[k])`. -/
def intifyKey (c : List (String × PyVal)) (k : String) :
    Except PyExn (List (String × PyVal)) :=
  match dictGet c k with
  | Option.some v => do
    let m ← pyIntOf v
    pure (dictSet c k (.int m))
  | Option.none => pure c

/-- Lines 903-908: `int()` the bigint `min`/`max` constraints in place. -/
def bigintConstraints (c : List (String × PyVal)) :
    Except PyExn (List (String × PyVal)) := do
  let c1 ← intifyKey c "min"
  intifyKey c1 "max"

/-- Lines 877-911: per-property preprocessing — `USER-DEFINED` type
resolution, `numeric(p,s)` formatting, bigint `min`/`max` intification,
json stringification. Returns the effective
`(data_type, constraints, input_value)` triple. -/
def resolveDataType (ctx : ValidateCtx) (fm : FieldMeta) (attr : String) :
    Option String :=
  -- lines 883-894: query the correct type name for user-defined columns
  if fm.data_type = Option.some "USER-DEFINED" then
    match ctx.udt attr with
    | Option.some t => Option.some t
    | Option.none => fm.data_type
  else fm.data_type

def resolveField (ctx : ValidateCtx) (fm : FieldMeta) (attr : String) (iv : PyVal) :
    Except PyExn (Option String × List (String × PyVal) × PyVal) := do
  let constraints := fm.constraints
  let data_type := resolveDataType ctx fm attr
  if data_type = Option.some "numeric" ∧
      (constraintsGetD constraints "numeric_precision" PyVal.none).truthy ∧
      (constraintsGetD constraints "numeric_scale" PyVal.none).truthy then do
    let p ← pyFmtD (constraintsGetD constraints "numeric_precision" PyVal.none)
    let s ← pyFmtD (constraintsGetD constraints "numeric_scale" PyVal.none)
    pure (Option.some ("numeric(" ++ p ++ "," ++ s ++ ")"), constraints, iv)
  else if data_type = Option.some "bigint" then do
    let constraints ← bigintConstraints constraints
    pure (data_type, constraints, iv)
  else if data_type = Option.some "json" ∨ data_type = Option.some "jsonb" then
    pure (data_type, constraints, .str (ctx.jsonDumps iv))
  else
    pure (data_type, constraints, iv)

/-- Lines 947-953: the `maxlength` constraint. -/
def checkMaxlength (attr : String) (cs : List (String × PyVal)) (value : PyVal) :
    Except PyExn (List TrMsg) :=
  match getNotNone cs "maxlength" with
  | Option.none => pure []
  | Option.some ml => do
    let m ← pyIntOf ml
    if (value.pyStr.length : Int) > m then
      pure [⟨"validation.value_must_be_shorter_than", [attr, ml.pyStr]⟩]
    else pure []

/-- Lines 955-961: the `min` constraint. -/
def checkMin (strToFloat : String → Option Rat) (attr : String)
    (cs : List (String × PyVal)) (value : PyVal) : Except PyExn (List TrMsg) :=
  match getNotNone cs "min" with
  | Option.none => pure []
  | Option.some mn => do
    let x ← pyFloatOf strToFloat value
    let lt ← ratLtPy x mn
    if lt then pure [⟨"validation.value_must_be_geq_to", [attr, mn.pyStr]⟩]
    else pure []

/-- Lines 963-969: the `max` constraint. -/
def checkMax (strToFloat : String → Option Rat) (attr : String)
    (cs : List (String × PyVal)) (value : PyVal) : Except PyExn (List TrMsg) :=
  match getNotNone cs "max" with
  | Option.none => pure []
  | Option.some mx => do
    let x ← pyFloatOf strToFloat value
    let gt ← ratGtPy x mx
    if gt then pure [⟨"validation.value_must_be_leq_to", [attr, mx.pyStr]⟩]
    else pure []

/-- Lines 971-984: the allowed-values constraint (with `allowMulti`). -/
def checkValues (ctx : ValidateCtx) (attr : String) (cs : List (String × PyVal))
    (value : PyVal) : Except PyExn (List TrMsg) := do
  let allowed ← allowedValuesOf (constraintsGetD cs "values" (.list []))
  if !allowed.isEmpty && value.truthy then
    if (constraintsGetD cs "allowMulti" (.bool false)).truthy then
      match ctx.literalEval value with
      | Option.some elems =>
        pure (elems.filterMap (fun el =>
          if el.pyStr ∈ allowed then (Option.none : Option TrMsg)
          else Option.some ⟨"validation.invalid_value_for", [attr]⟩))
      | Option.none => pure [⟨"validation.invalid_value_for", [attr]⟩]
    else
      if value.pyStr ∈ allowed then pure []
      else pure [⟨"validation.invalid_value_for", [attr]⟩]
  else pure []

/-- `type(v) is int` in Python (bools are not ints for `type ... is`). -/
def PyVal.isInt : PyVal → Bool
  | .int _ => true
  | _ => false

/-- `v is None` in Python. -/
def PyVal.isNone : PyVal → Bool
  | .none => true
  | _ => false

/-- Lines 938-984: the boolean-vs-int guard and the constraint checks,
reached when the cast produced a non-NULL `value`. -/
def checkConstraints (ctx : ValidateCtx) (attr : String) (data_type : Option String)
    (cs : List (String × PyVal)) (input_value value : PyVal) :
    Except PyExn (List TrMsg) :=
  if data_type = Option.some "boolean" ∧ input_value.isInt then
    pure [⟨"validation.invalid_value", [attr, dataTypeStr data_type]⟩]
  else do
    let e1 ← checkMaxlength attr cs value
    let e2 ← checkMin ctx.strToFloat attr cs value
    let e3 ← checkMax ctx.strToFloat attr cs value
    let e4 ← checkValues ctx attr cs value
    pure (e1 ++ e2 ++ e3 ++ e4)

/-- Lines 913-984: readOnly skip, savepoint-guarded DB cast, `None` skip,
then the constraint checks for one property. Returns the errors appended
for this property. -/
def checkField (ctx : ValidateCtx) (attr : String) (data_type : Option String)
    (cs : List (String × PyVal)) (input_value : PyVal) :
    Except PyExn (List TrMsg) :=
  if (constraintsGetD cs "readOnly" (.bool false)).truthy then
    pure []
  else
    match ctx.cast (dataTypeStr data_type) input_value with
    | .error () =>
      -- DataError/ProgrammingError: `value` stays None, so the loop continues
      pure [⟨"validation.invalid_value", [attr, dataTypeStr data_type]⟩]
    | .ok value =>
      if value.isNone then pure []
      else checkConstraints ctx attr data_type cs input_value value

/-- One iteration of the properties loop (lines 877-984). -/
def validate_field (ctx : ValidateCtx) (fm : FieldMeta) (attr : String) (iv : PyVal) :
    Except PyExn (List TrMsg) := do
  let (dt, cs, iv2) ← resolveField ctx fm attr iv
  checkField ctx attr dt cs iv2

/-- `self.fields.get(attr, {})`: the empty metadata dict. -/
def emptyFieldMeta : FieldMeta := ⟨Option.none, [], Option.none⟩

/-- The `for attr in feature['properties']` loop, accumulating errors. -/
def validateFieldsLoop (ctx : ValidateCtx) (fields : List (String × FieldMeta)) :
    List (String × PyVal) → Except PyExn (List TrMsg)
  | [] => pure []
  | (attr, iv) :: rest => do
    let es ← validate_field ctx ((lookupField fields attr).getD emptyFieldMeta) attr iv
    let more ← validateFieldsLoop ctx fields rest
    pure (es ++ more)

/-- Lines 996-1002: the required-value check for one field — missing or
`None` values give a `missing_required_value_for` error, the empty string a
`value_for_cannot_be_blank` error (`== ""` is only true for strings). -/
def requiredCheck (attr : String) (props : List (String × PyVal)) : List TrMsg :=
  match dictGet props attr with
  | Option.none => [⟨"validation.missing_required_value_for", [attr]⟩]
  | Option.some PyVal.none => [⟨"validation.missing_required_value_for", [attr]⟩]
  | Option.some (PyVal.str s) =>
    if s = "" then [⟨"validation.value_for_cannot_be_blank", [attr]⟩] else []
  | Option.some _ => []

/-- Lines 986-1002: remove read-only properties and hidden fields without a
value, and check required values. -/
def removalLoop : List (String × FieldMeta) → List (String × PyVal) → List TrMsg →
    List (String × PyVal) × List TrMsg
  | [], props, errs => (props, errs)
  | (attr, fm) :: rest, props, errs =>
    if (constraintsGetD fm.constraints "readOnly" (.bool false)).truthy ∨
        ((constraintsGetD fm.constraints "hidden" (.bool false)).truthy ∧
          ¬ ((dictGet props attr).getD PyVal.none).truthy) then
      removalLoop rest (props.filter (fun kv => kv.1 ≠ attr)) errs
    else if (constraintsGetD fm.constraints "required" (.bool false)).truthy then
      removalLoop rest props (errs ++ requiredCheck attr props)
    else removalLoop rest props errs

/-- `DatasetFeaturesProvider.validate_fields` (lines 863-1004): returns the
error list and the mutated `feature['properties']` dict. -/
def validate_fields (ctx : ValidateCtx) (fields : List (String × FieldMeta))
    (props : List (String × PyVal)) :
    Except PyExn (List TrMsg × List (String × PyVal)) := do
  if fields.isEmpty then
    -- skip validation if fields metadata is empty (properties untouched)
    pure ([], props)
  else do
    let errs ← validateFieldsLoop ctx fields props
    let (props2, errs2) := removalLoop fields props errs
    pure (errs2, props2)

/-! ## Theorems -/

/-- C9 (counterexample): when only `target_srid` is unknown (`None`),
`transform_geom_sql` does *not* pass the fragment through unchanged — the
source only tests `geom_sql` and `geom_srid` for `None` — it wraps the
fragment in `ST_Transform(..., None)`. -/
theorem c9_counterexample :
    transform_geom_sql (Option.some "\"geom\"") (Option.some 2056) Option.none =
      Option.some "ST_Transform(\"geom\", None)" ∧
    Option.some "ST_Transform(\"geom\", None)" ≠ Option.some "\"geom\"" := by
  refine ⟨rfl, ?_⟩
  decide

/-- C9 (amended): `transform_geom_sql(geom_sql, geom_srid, target_srid)`
returns `geom_sql` unchanged when the two SRIDs are equal, when `geom_srid`
is unknown (`None`), or when `geom_sql` itself is `None`; in every other
case — including `target_srid = None` — it wraps `geom_sql` in an
`ST_Transform` to `target_srid`. -/
theorem c9_transform_passthrough (s : String) (g : Int) (t : Option Int) :
    transform_geom_sql Option.none (Option.some g) t = Option.none
    ∧ transform_geom_sql (Option.some s) Option.none t = Option.some s
    ∧ transform_geom_sql (Option.some s) (Option.some g) (Option.some g) = Option.some s
    ∧ (t ≠ Option.some g →
        transform_geom_sql (Option.some s) (Option.some g) t =
          Option.some ("ST_Transform(" ++ s ++ ", " ++ optStr t ++ ")")) := by
  refine ⟨by simp [transform_geom_sql], by simp [transform_geom_sql],
    by simp [transform_geom_sql], fun ht => ?_⟩
  have : ¬(Option.some s = Option.none ∨ (Option.some g : Option Int) = Option.none ∨
      Option.some g = t) := by
    simp
    exact fun h => ht h.symm
  unfold transform_geom_sql
  rw [if_neg this]

theorem c9_transform_passthrough_witness :
    transform_geom_sql (Option.some "g") (Option.some 1) Option.none =
      Option.some "ST_Transform(g, None)" :=
  (c9_transform_passthrough "g" 1 Option.none).2.2.2 (by simp)

/-- C10: in `DataService.show` the `crs` argument is parsed by calling
`parse_crs` on the provider *before* the provider is checked for `None`: for
a request naming an unknown/unpermitted dataset (provider `None`) together
with a non-null `crs`, the operation raises `AttributeError`; the same
request with `crs` omitted returns the "Dataset not found or permission
error" result. -/
theorem c10_show_crs_parsed_before_none_check (id : PyVal) (c : String) :
    dataservice_show Option.none id (Option.some c) = .error .attributeError
    ∧ dataservice_show Option.none id Option.none = .ok .datasetNotFound :=
  ⟨rfl, rfl⟩

/-- C5: `validate` returns an error mapping with at most one populated
category; structural errors preempt geometry errors preempt field errors
(each equation's right-hand side does not mention the later stages' results,
i.e. they are not consulted), and the mapping is empty when all three stages
pass. -/
theorem c5_validate_single_category {α : Type} (v g d : List α) :
    (validateCombine v g d).length ≤ 1
    ∧ (v ≠ [] → validateCombine v g d = [("validation_errors", v)])
    ∧ (v = [] → g ≠ [] → validateCombine v g d = [("geometry_errors", g)])
    ∧ (v = [] → g = [] → d ≠ [] → validateCombine v g d = [("data_errors", d)])
    ∧ (v = [] → g = [] → d = [] → validateCombine v g d = []) := by
  unfold validateCombine
  rcases v with _ | ⟨x, xs⟩ <;> rcases g with _ | ⟨y, ys⟩ <;> rcases d with _ | ⟨z, zs⟩ <;>
    simp

theorem c5_validate_single_category_witness :
    validateCombine ["e"] ([] : List String) [] = [("validation_errors", ["e"])]
    ∧ validateCombine ([] : List String) [] [] = [] :=
  ⟨(c5_validate_single_category ["e"] [] []).2.1 (by simp),
   (c5_validate_single_category ([] : List String) [] []).2.2.2.2 rfl rfl rfl⟩

theorem outsideWindow_iff (start : Nat) (stop : Option Nat) (idx : Nat) :
    outsideWindow start stop idx = true ↔
      (idx < start ∨ ∃ e, stop = Option.some e ∧ e ≤ idx) := by
  rcases stop with _ | e <;> simp [outsideWindow]

theorem windowFeatures_length (mk : PyVal → PyVal) (start : Nat) (stop : Option Nat) :
    ∀ (rows : List PyVal) (i : Nat),
      (windowFeatures mk start stop i rows).length = rows.length := by
  intro rows
  induction rows with
  | nil => intro i; rfl
  | cons r rs ih => intro i; simp [windowFeatures, ih]

theorem windowFeatures_getElem (mk : PyVal → PyVal) (start : Nat) (stop : Option Nat) :
    ∀ (rows : List PyVal) (i idx : Nat),
      (windowFeatures mk start stop i rows)[idx]? =
        (rows[idx]?).map (fun row =>
          if outsideWindow start stop (i + idx) then .dict [] else mk row) := by
  intro rows
  induction rows with
  | nil => intro i idx; simp [windowFeatures]
  | cons r rs ih =>
    intro i idx
    cases idx with
    | zero => simp [windowFeatures]
    | succ k =>
      simp only [windowFeatures, List.getElem?_cons_succ]
      rw [ih (i + 1) k]
      have : i + 1 + k = i + (k + 1) := by omega
      rw [this]

/-- C4 (counterexample): (a) calling `index` with a limit but no offset does
not apply a window — `(offset + limit) if limit else None` raises `TypeError`
on `None + int`; (b) `limit = 0` is falsy, so the window `[offset, offset+0)`
is not empty as the claim's reading requires: with 3 rows, `limit=0`,
`offset=1`, `numberReturned` is 2, not 0. -/
theorem C4_counterexample :
    indexWindow [.int 1, .int 2, .int 3] (fun v => v) (Option.some 1) Option.none =
      .error .typeError
    ∧ indexWindow [.int 1, .int 2, .int 3] (fun v => v) (Option.some 0) (Option.some 1) =
      .ok ⟨[.dict [], .int 2, .int 3], [.int 2, .int 3], 3, 2⟩ := by
  constructor <;> rfl

/-- C4 (amended): for every call to `index` that provides an offset (and
either no limit or a positive limit), the window is applied as a post-fetch
slice of the full query result: every fetched row outside
`[offset, offset+limit)` is materialized as an empty placeholder `{}` in the
internal feature list (rows inside are converted via `feature_from_query`),
`numberMatched` equals the total unsliced row count, and `numberReturned`
equals the number of features in the returned slice.  (A positive limit
without an offset raises `TypeError`, and `limit = 0` disables the upper
bound instead of producing an empty window.) -/
theorem C4_window_post_fetch (rows : List PyVal) (mk : PyVal → PyVal)
    (limit : Option Nat) (o : Nat)
    (hl : limit = Option.none ∨ ∃ l, limit = Option.some l ∧ 0 < l) :
    ∃ r, indexWindow rows mk limit (Option.some o) = .ok r
      ∧ r.internalFeatures.length = rows.length
      ∧ r.numberMatched = rows.length
      ∧ r.numberReturned = r.features.length
      ∧ r.features = pySlice r.internalFeatures o (limit.map (o + ·))
      ∧ (∀ idx, idx < rows.length →
          ((idx < o ∨ (∃ l, limit = Option.some l ∧ o + l ≤ idx)) →
              r.internalFeatures[idx]? = Option.some (.dict []))
          ∧ (o ≤ idx → (∀ l, limit = Option.some l → idx < o + l) →
              r.internalFeatures[idx]? = (rows[idx]?).map mk)) := by
  have hwin : indexWindow rows mk limit (Option.some o) = .ok {
      internalFeatures := windowFeatures mk o (limit.map (o + ·)) 0 rows
      features := pySlice (windowFeatures mk o (limit.map (o + ·)) 0 rows) o
        (limit.map (o + ·))
      numberMatched := (windowFeatures mk o (limit.map (o + ·)) 0 rows).length
      numberReturned := (pySlice (windowFeatures mk o (limit.map (o + ·)) 0 rows) o
        (limit.map (o + ·))).length } := by
    rcases hl with h | ⟨l, h, hl0⟩ <;> subst h
    · rfl
    · simp only [indexWindow, Nat.pos_iff_ne_zero.mp hl0, if_false, ite_false]
      rfl
  refine ⟨_, hwin, windowFeatures_length _ _ _ _ _, windowFeatures_length _ _ _ _ _,
    rfl, rfl, ?_⟩
  intro idx hidx
  have hget := windowFeatures_getElem mk o (limit.map (o + ·)) rows 0 idx
  have hz : 0 + idx = idx := by omega
  rw [hz] at hget
  obtain ⟨row, hrow⟩ : ∃ row, rows[idx]? = Option.some row :=
    ⟨rows[idx], List.getElem?_eq_getElem hidx⟩
  constructor
  · intro hout
    have hcond : outsideWindow o (limit.map (o + ·)) idx = true := by
      rw [outsideWindow_iff]
      rcases hout with h | ⟨l, hlim, hge⟩
      · exact Or.inl h
      · exact Or.inr ⟨o + l, by rw [hlim]; rfl, hge⟩
    rw [hget, hrow]
    simp [hcond]
  · intro hge hlt
    have hcond : outsideWindow o (limit.map (o + ·)) idx = false := by
      rw [Bool.eq_false_iff]
      intro hc
      rw [outsideWindow_iff] at hc
      rcases hc with h | ⟨e, he, hee⟩
      · omega
      · rcases limit with _ | l
        · simp at he
        · simp at he
          have := hlt l rfl
          omega
    rw [hget, hrow]
    simp [hcond]

theorem C4_window_post_fetch_witness :
    ∃ r, indexWindow [.int 1, .int 2, .int 3] (fun v => v) (Option.some 1)
        (Option.some 1) = .ok r ∧ r.numberMatched = 3 := by
  obtain ⟨r, h1, _, h3, _⟩ := C4_window_post_fetch [.int 1, .int 2, .int 3] (fun v => v)
    (Option.some 1) 1 (Or.inr ⟨1, rfl, Nat.one_pos⟩)
  exact ⟨r, h1, by simpa using h3⟩

/-- The claim's (spec's) notion of 3D detection, for comparison with the
code's `has_z` — modelled from the spec's words: *some* coordinate tuple (a
maximal nested list holding no further lists) has length 3, searched
recursively through arbitrarily nested coordinate arrays. -/
def some_tuple_len3 : PyVal → Bool
  | .list xs =>
    if xs.all (fun x => ¬ x.isList) then xs.length == 3
    else xs.attach.any (fun x => some_tuple_len3 x.1)
  | _ => false
decreasing_by
  rename_i h; have := List.sizeOf_lt_of_mem x.2; simp_all; omega

def C7_coords : PyVal := .list [.list [.int 1, .int 2], .list [.int 1, .int 2, .int 3]]

/-- C7 (counterexample): a MultiPoint whose *second* position is a length-3
tuple but whose first is 2D is 3D by the claim's "some coordinate tuple"
criterion, yet `has_z` (which only ever descends into the first element)
reports no Z, so the detected type gets no `Z` suffix. -/
theorem C7_counterexample :
    some_tuple_len3 C7_coords = true
    ∧ has_z C7_coords = .ok false
    ∧ detected_geom_type "MULTIPOINT" C7_coords = .ok "MULTIPOINT" := by
  refine ⟨?_, rfl, rfl⟩
  simp [some_tuple_len3, C7_coords, PyVal.isList]

/-- C7 (amended): the detected geometry type is given a `Z` suffix exactly
when the *leftmost innermost* coordinate tuple has length 3: `has_z` descends
recursively through first elements only, and when the first element is a
non-list it tests the length of the current array; the suffixed type is then
compared exactly against the configured `geometry_type` unless that type is
the wildcard `Geometry`. -/
theorem C7_z_suffix_first_tuple :
    (∀ (x : PyVal) (xs : List PyVal), x.isList = false →
        has_z (.list (x :: xs)) = .ok ((x :: xs).length == 3))
    ∧ (∀ (t rest : List PyVal), has_z (.list (.list t :: rest)) = has_z (.list t))
    ∧ (∀ (s : String) (coords : PyVal) (b : Bool), has_z coords = .ok b →
        detected_geom_type s coords = .ok (if b then s ++ "Z" else s))
    ∧ (∀ cfg det, geom_type_mismatch cfg det = true ↔ cfg ≠ "Geometry" ∧ det ≠ cfg) := by
  refine ⟨fun x xs h => ?_, fun t rest => ?_, fun s coords b h => ?_, fun cfg det => ?_⟩
  · simp [has_z, h]
  · simp [has_z, PyVal.isList]
  · unfold detected_geom_type
    rw [h]
    rfl
  · simp [geom_type_mismatch, Bool.and_eq_true, bne_iff_ne]

theorem C7_z_suffix_first_tuple_witness :
    detected_geom_type "POINT" (.list [.int 1, .int 2, .int 3]) = .ok "POINTZ" := by
  have h1 := C7_z_suffix_first_tuple.1 (.int 1) [.int 2, .int 3] rfl
  have h3 := C7_z_suffix_first_tuple.2.2.1 "POINT" (.list [.int 1, .int 2, .int 3]) true
    (by simpa using h1)
  simpa using h3

def C8_cfg : ProviderCfg where
  primary_key := "id"
  attributes := ["id", "name"]
  fields := [("id", ⟨Option.some "integer", [], Option.none⟩),
             ("name", ⟨Option.some "text", [], Option.none⟩)]
  jointables := []

/-- C8 (code bug): when `filter_fields` omits the primary key,
`__prepare_join_query` reaches `attributes.prepend(self.primary_key)` — but
Python lists have no `prepend` method, so instead of force-including the
primary key the call raises `AttributeError` and the operation does not
complete (the comment `# Ensure primary key is always returned` and the spec
state the intent; `sql_params_for_feature` has the same
`return_columns.prepend` slip).  When the projection does contain the primary
key, the query preparation completes normally. -/
theorem C8_prepend_attribute_error :
    prepare_join_query C8_cfg (Option.some ["name"]) = .error .attributeError
    ∧ prepare_join_query C8_cfg Option.none = .ok (["id", "name"], "") := by
  constructor <;> rfl

theorem intercalate_single (t : String) : String.intercalate " " [t] = t := by
  simp [String.intercalate, String.intercalate.go]

/-- C2 (counterexample): a leaf with a `null` value and the allowed operator
`<` does *not* produce a parse error: `parse_filter` succeeds and emits the
leaf with the operator unchanged, binding NULL as the parameter (the
null-rewrite branch only handles `=`/`!=` and falls through silently for
every other operator). -/
theorem C2_counterexample :
    parse_filter ⟨"a", []⟩ (.decoded (.list [.list [.str "a", .str "<", PyVal.none]])) =
      .ok (.ok "(\"a\" < :v0)" [("v0", PyVal.none)]) := rfl

/-- C2 (amended): for a permitted single-leaf filter `[c, op, null]` with an
allowed operator: `=` is rewritten to `IS` and `!=` to `IS NOT`; any other
allowed operator is emitted *unchanged* with NULL bound as the parameter —
no parse error is raised. -/
theorem C2_null_value_operators (ctx : FilterCtx) (c opstr : String)
    (hq : pyStartsWithQ c = false)
    (hc : c = ctx.primary_key ∨ c ∈ ctx.attributes)
    (hop : pyStrip (pyUpper opstr) ∈ OPERATORS) :
    parse_filter ctx (.decoded (.list [.list [.str c, .str opstr, PyVal.none]])) =
      .ok (.ok ("(\"" ++ c ++ "\" " ++
        (if pyStrip (pyUpper opstr) = "=" then "IS"
         else if pyStrip (pyUpper opstr) = "!=" then "IS NOT"
         else pyStrip (pyUpper opstr)) ++ " :v0)")
        [("v0", PyVal.none)]) := by
  have hcond : ¬(c ≠ ctx.primary_key ∧ c ∉ ctx.attributes) := by tauto
  simp only [parse_filter, PyVal.isList, parseFilterEntries, parseFilterEntry, hq,
    Bool.false_eq_true, if_false, hcond, if_true, ite_false, ite_true, hop,
    not_true, not_false_iff]
  simp only [isValueType, Bool.true_eq_false, not_true, if_false, ite_true, ite_false,
    Bool.not_true, PFState.addLeaf]
  have ht : toString (0 : Nat) = "0" := rfl
  simp only [List.nil_append, List.length_nil, ht]
  simp only [bind, Except.bind, pure, Except.pure]
  simp [String.append_assoc, intercalate_single]
  rw [← String.append_assoc "(" "\"" _]
  rfl

theorem C2_null_value_operators_witness :
    parse_filter ⟨"a", []⟩ (.decoded (.list [.list [.str "a", .str "=", PyVal.none]])) =
      .ok (.ok "(\"a\" IS :v0)" [("v0", PyVal.none)])
    ∧ parse_filter ⟨"a", []⟩ (.decoded (.list [.list [.str "a", .str "like", PyVal.none]])) =
      .ok (.ok "(\"a\" LIKE :v0)" [("v0", PyVal.none)]) :=
  ⟨(C2_null_value_operators ⟨"a", []⟩ "a" "=" rfl (Or.inl rfl) (by decide)).trans rfl,
   (C2_null_value_operators ⟨"a", []⟩ "a" "like" rfl (Or.inl rfl) (by decide)).trans rfl⟩

/-- C3 (counterexample): the claim's own example
`[["?absent","=",1],"and",["permitted","=",2]]` does *not* parse
successfully: the `continue` that drops the soft leaf skips the `i += 1` at
the bottom of the loop, so the following `"and"` is checked at counter 0 and
is rejected as misplaced. -/
theorem C3_counterexample :
    parse_filter ⟨"p", ["permitted"]⟩
      (.decoded (.list [.list [.str "?absent", .str "=", .int 1], .str "and",
                        .list [.str "permitted", .str "=", .int 2]])) =
      .ok (.perr "Incorrect concatenation operator position for 'AND'") := rfl

/-- C3 (amended): a leaf whose `?`-prefixed column is neither the primary key
nor permitted is dropped silently — the parser records no error for it and
leaves `sql`, `params` and the loop counter untouched, continuing with the
remaining entries.  Because the counter is not advanced, a concatenation
operator *following* the dropped leaf fails the position check (see
`C3_counterexample`), whereas an expression with the soft leaf after the
operator parses successfully, with the now-dangling operator left in the
fragment. -/
theorem C3_soft_leaf_dropped :
    (∀ (ctx : FilterCtx) (n i : Nat) (st : PFState) (rest : List PyVal)
        (c : String) (o v : PyVal),
      pyStartsWithQ c = true →
      pyDrop1 c ≠ ctx.primary_key →
      pyDrop1 c ∉ ctx.attributes →
      parseFilterEntries ctx (.list [.str c, o, v] :: rest) n i st =
        parseFilterEntries ctx rest n i st)
    ∧ parse_filter ⟨"p", ["permitted"]⟩
        (.decoded (.list [.list [.str "permitted", .str "=", .int 2], .str "and",
                          .list [.str "?absent", .str "=", .int 1]])) =
        .ok (.ok "(\"permitted\" = :v0 AND)" [("v0", .int 2)]) := by
  constructor
  · intro ctx n i st rest c o v hq hnp hna
    have hcond : pyDrop1 c ≠ ctx.primary_key ∧ pyDrop1 c ∉ ctx.attributes := ⟨hnp, hna⟩
    simp only [parseFilterEntries, parseFilterEntry, hq, PyVal.isList, if_true, ite_true,
      Bool.false_eq_true, if_false]
    rw [if_pos hcond]
    rfl
  · rfl

theorem C3_soft_leaf_dropped_witness :
    parseFilterEntries ⟨"p", ["permitted"]⟩
        [.list [.str "?absent", .str "=", .int 1]] 1 0 ⟨[], [], []⟩ =
      parseFilterEntries ⟨"p", ["permitted"]⟩ [] 1 0 ⟨[], [], []⟩ :=
  C3_soft_leaf_dropped.1 ⟨"p", ["permitted"]⟩ 1 0 ⟨[], [], []⟩ []
    "?absent" (.str "=") (.int 1) rfl (by decide) (by decide)


/-! ## C1: value-erasure and the two-run simulation

`eraseEntry` replaces every leaf *value* of a filter expression by a
canonical representative of its class (null stays null, any non-null scalar
becomes `True`, non-scalar values are erased recursively as entries),
following exactly the positions the parser treats as leaf values.  Two
expressions that are "identical except for the leaf values (with
corresponding values equally null)" have equal erasures; the simulation
lemma below shows a parse run is equivalent — same `sql` tokens, same number
of params and errors, same exception — to the run on the erased input, which
yields the injection-safety hyperproperty. -/
mutual

def eraseEntry : PyVal → PyVal
  | .str s => .str s
  | .list [] => .list []
  | .list (l0 :: ltl) =>
    if l0.isList then .list (eraseEntry l0 :: eraseEntryList ltl)
    else
      match ltl with
      | [o, v] => .list [l0, o, eraseValue v]
      | _ => .list (l0 :: ltl)
  | other => other

def eraseValue : PyVal → PyVal
  | .none => .none
  | .bool _ => .bool true
  | .int _ => .bool true
  | .float _ => .bool true
  | .str _ => .bool true
  | .dict d => .dict d
  | .list [] => .list []
  | .list (l0 :: ltl) =>
    if l0.isList then .list (eraseEntry l0 :: eraseEntryList ltl)
    else
      match ltl with
      | [o, v] => .list [l0, o, eraseValue v]
      | _ => .list (l0 :: ltl)

def eraseEntryList : List PyVal → List PyVal
  | [] => []
  | e :: es => eraseEntry e :: eraseEntryList es

end

theorem eraseEntryList_length : ∀ xs : List PyVal, (eraseEntryList xs).length = xs.length := by
  intro xs
  induction xs with
  | nil => rfl
  | cons e es ih => simp [eraseEntryList, ih]

theorem isList_iff (v : PyVal) : v.isList = true ↔ ∃ ys, v = .list ys := by
  cases v <;> simp [PyVal.isList]

theorem eraseValue_list_eq (l0 : PyVal) (ltl : List PyVal) :
    eraseValue (.list (l0 :: ltl)) = eraseEntry (.list (l0 :: ltl)) := by
  rcases l0 <;>
    rcases ltl with _ | ⟨o, ltl2⟩ <;>
    (try rcases ltl2 with _ | ⟨v, ltl3⟩) <;>
    (try rcases ltl3 with _ | ⟨w, ltl4⟩) <;>
    rfl

theorem eraseEntry_list_isList (xs : List PyVal) :
    (eraseEntry (.list xs)).isList = true := by
  rcases xs with _ | ⟨l0, ltl⟩
  · rfl
  · rcases l0 <;>
      rcases ltl with _ | ⟨o, ltl2⟩ <;>
      (try rcases ltl2 with _ | ⟨v, ltl3⟩) <;>
      (try rcases ltl3 with _ | ⟨w, ltl4⟩) <;>
      rfl

theorem eraseValue_list_isList (xs : List PyVal) :
    (eraseValue (.list xs)).isList = true := by
  rcases xs with _ | ⟨l0, ltl⟩
  · rfl
  · rw [eraseValue_list_eq]
    exact eraseEntry_list_isList _

theorem eraseValue_none_iff (v : PyVal) : eraseValue v = .none ↔ v = .none := by
  cases v <;> simp [eraseValue]
  case list xs =>
    have h := eraseValue_list_isList xs
    intro he
    rw [he] at h
    simp [PyVal.isList] at h

theorem eraseValue_isValueType (v : PyVal) : isValueType (eraseValue v) = isValueType v := by
  cases v <;> simp [eraseValue, isValueType]
  case list xs =>
    have h := eraseValue_list_isList xs
    obtain ⟨ys, hy⟩ := (isList_iff _).mp h
    rw [hy]

/-- Relation between the accumulator states of the two runs: identical SQL
tokens, equally many params, equally many errors. -/
def SimSt (st st1 : PFState) : Prop :=
  st.sql = st1.sql ∧ st.params.length = st1.params.length ∧
    st.errors.length = st1.errors.length

def SimStep : Except PyExn StepRes → Except PyExn StepRes → Prop
  | .error e, .error e1 => e = e1
  | .ok (.stop s), .ok (.stop s1) => SimSt s s1
  | .ok (.cont s a), .ok (.cont s1 a1) => SimSt s s1 ∧ a = a1
  | _, _ => False

def SimOut : Except PyExn PFState → Except PyExn PFState → Prop
  | .error e, .error e1 => e = e1
  | .ok s, .ok s1 => SimSt s s1
  | _, _ => False

theorem SimSt.addErrSim {st st1 : PFState} (h : SimSt st st1) (m m1 : String) :
    SimSt (st.addErr m) (st1.addErr m1) := by
  obtain ⟨h1, h2, h3⟩ := h
  exact ⟨h1, h2, by simp [PFState.addErr, h3]⟩

theorem SimSt.addSqlSim {st st1 : PFState} (h : SimSt st st1) (t : String) :
    SimSt (st.addSql t) (st1.addSql t) := by
  obtain ⟨h1, h2, h3⟩ := h
  exact ⟨by simp [PFState.addSql, h1], h2, h3⟩

theorem SimSt.addLeafSim {st st1 : PFState} (h : SimSt st st1) (c op : String)
    (v w : PyVal) : SimSt (st.addLeaf c op v) (st1.addLeaf c op w) := by
  obtain ⟨h1, h2, h3⟩ := h
  refine ⟨?_, ?_, h3⟩
  · simp [PFState.addLeaf, h1, h2]
  · simp [PFState.addLeaf, h2]

set_option maxHeartbeats 2000000 in
theorem parse_sim : ∀ k : Nat,
    (∀ e : PyVal, sizeOf e ≤ k → ∀ (ctx : FilterCtx) (n i : Nat) (st st1 : PFState),
      SimSt st st1 →
      SimStep (parseFilterEntry ctx n i st e) (parseFilterEntry ctx n i st1 (eraseEntry e)))
    ∧ (∀ xs : List PyVal, sizeOf xs ≤ k → ∀ (ctx : FilterCtx) (n i : Nat) (st st1 : PFState),
      SimSt st st1 →
      SimOut (parseFilterEntries ctx xs n i st)
             (parseFilterEntries ctx (eraseEntryList xs) n i st1)) := by
  intro k
  induction k using Nat.strong_induction_on with
  | _ k IH =>
  constructor
  · intro e hsize ctx n i st st1 hsim
    match e with
    | .str s =>
      simp only [eraseEntry, parseFilterEntry]
      by_cases h1 : pyUpper s ∉ CONCAT_OPERATORS
      · rw [if_pos h1, if_pos h1]
        exact hsim.addErrSim _ _
      · rw [if_neg h1, if_neg h1]
        by_cases h2 : i % 2 ≠ 1 ∨ i = n - 1
        · rw [if_pos h2, if_pos h2]
          exact hsim.addErrSim _ _
        · rw [if_neg h2, if_neg h2]
          exact ⟨hsim.addSqlSim _, rfl⟩
    | .none => exact ⟨hsim.addErrSim _ _, rfl⟩
    | .bool b => exact ⟨hsim.addErrSim _ _, rfl⟩
    | .int m => exact ⟨hsim.addErrSim _ _, rfl⟩
    | .float q => exact ⟨hsim.addErrSim _ _, rfl⟩
    | .dict d => exact ⟨hsim.addErrSim _ _, rfl⟩
    | .list [] => exact hsim.addErrSim _ _
    | .list (l0 :: ltl) =>
      have hsl : sizeOf (l0 :: ltl) < k := by
        have h : sizeOf (PyVal.list (l0 :: ltl)) = 1 + sizeOf (l0 :: ltl) := by simp
        omega
      by_cases hl : l0.isList = true
      · -- nested sub-expression
        obtain ⟨xs0, hxs0⟩ := (isList_iff l0).mp hl
        subst hxs0
        have he : eraseEntry (.list (.list xs0 :: ltl)) =
            .list (eraseEntry (.list xs0) :: eraseEntryList ltl) := rfl
        have hl1 : (eraseEntry (.list xs0)).isList = true := eraseEntry_list_isList xs0
        rw [he]
        simp only [parseFilterEntry]
        rw [if_pos hl, if_pos hl1]
        have hlen : (eraseEntry (.list xs0) :: eraseEntryList ltl).length =
            (PyVal.list xs0 :: ltl).length := by
          simp [eraseEntryList_length]
        rw [hlen]
        have hnested := (IH (sizeOf (PyVal.list xs0 :: ltl)) hsl).2 (PyVal.list xs0 :: ltl)
          le_rfl ctx ((PyVal.list xs0 :: ltl).length) 0 (st.addSql "(") (st1.addSql "(")
          (hsim.addSqlSim "(")
        have hel : eraseEntryList (PyVal.list xs0 :: ltl) =
            eraseEntry (.list xs0) :: eraseEntryList ltl := rfl
        rw [hel] at hnested
        rcases hn : parseFilterEntries ctx (PyVal.list xs0 :: ltl)
            ((PyVal.list xs0 :: ltl).length) 0 (st.addSql "(") with exn | s2 <;>
          rcases hn1 : parseFilterEntries ctx (eraseEntry (.list xs0) :: eraseEntryList ltl)
              ((PyVal.list xs0 :: ltl).length) 0 (st1.addSql "(") with exn1 | s3 <;>
          rw [hn, hn1] at hnested <;>
          simp only [SimOut] at hnested
        · subst hnested
          exact rfl
        · exact ⟨hnested.addSqlSim _, rfl⟩
      · -- head is not a list: leaf or malformed
        rcases ltl with _ | ⟨o, ltl2⟩
        · have he : eraseEntry (.list [l0]) = .list [l0] := by
            simp only [eraseEntry]
            rw [if_neg hl]
          rw [he]
          simp only [parseFilterEntry]
          rw [if_neg hl, if_neg hl]
          exact hsim.addErrSim _ _
        rcases ltl2 with _ | ⟨v, ltl3⟩
        · have he : eraseEntry (.list [l0, o]) = .list [l0, o] := by
            simp only [eraseEntry]
            rw [if_neg hl]
          rw [he]
          simp only [parseFilterEntry]
          rw [if_neg hl, if_neg hl]
          exact hsim.addErrSim _ _
        rcases ltl3 with _ | ⟨w, ltl4⟩
        · -- the leaf [l0, o, v]
          have he : eraseEntry (.list [l0, o, v]) = .list [l0, o, eraseValue v] := by
            simp only [eraseEntry]
            rw [if_neg hl]
          rw [he]
          simp only [parseFilterEntry]
          rw [if_neg hl, if_neg hl]
          cases l0 with
          | list ls => exact (hl rfl).elim
          | str cn0 =>
            dsimp only
            cases o with
            | str o0 =>
              dsimp only
              cases v with
              | list vs =>
                obtain ⟨ys, hy⟩ := (isList_iff _).mp (eraseValue_list_isList vs)
                rw [hy]
                simp only [isValueType]
                split_ifs <;>
                  first
                    | exact ⟨hsim, rfl⟩
                    | exact hsim.addErrSim _ _
                    | exact ⟨hsim.addLeafSim _ _ _ _, rfl⟩
              | _ =>
                simp only [eraseValue, isValueType]
                split_ifs <;>
                  first
                    | exact ⟨hsim, rfl⟩
                    | exact hsim.addErrSim _ _
                    | exact ⟨hsim.addLeafSim _ _ _ _, rfl⟩
            | _ =>
              dsimp only
              split_ifs <;>
                first
                  | exact ⟨hsim, rfl⟩
                  | exact hsim.addErrSim _ _
                  | exact rfl
          | _ => exact hsim.addErrSim _ _
        · -- length ≥ 4
          have he : eraseEntry (.list (l0 :: o :: v :: w :: ltl4)) =
              .list (l0 :: o :: v :: w :: ltl4) := by
            simp only [eraseEntry]
            rw [if_neg hl]
          rw [he]
          simp only [parseFilterEntry]
          rw [if_neg hl, if_neg hl]
          exact hsim.addErrSim _ _
  · intro xs hsize ctx n i st st1 hsim
    match xs with
    | [] => exact hsim
    | x :: rest =>
      have hsx : sizeOf x < k := by
        have h : sizeOf (x :: rest) = 1 + sizeOf x + sizeOf rest := by simp
        omega
      have hsr : sizeOf rest < k := by
        have h : sizeOf (x :: rest) = 1 + sizeOf x + sizeOf rest := by simp
        omega
      have hx := (IH (sizeOf x) hsx).1 x le_rfl ctx n i st st1 hsim
      have hel : eraseEntryList (x :: rest) = eraseEntry x :: eraseEntryList rest := rfl
      rw [hel]
      simp only [parseFilterEntries]
      rcases hr : parseFilterEntry ctx n i st x with exn | r <;>
        rcases hr1 : parseFilterEntry ctx n i st1 (eraseEntry x) with exn1 | r1 <;>
        rw [hr, hr1] at hx
      · simp only [SimStep] at hx
        subst hx
        exact rfl
      · exfalso
        cases r1 <;> simp [SimStep] at hx
      · exfalso
        cases r <;> simp [SimStep] at hx
      · rcases r with s | ⟨s, a⟩ <;> rcases r1 with s1 | ⟨s1, a1⟩
        · simp only [SimStep] at hx
          exact hx
        · exfalso
          simp [SimStep] at hx
        · exfalso
          simp [SimStep] at hx
        · simp only [SimStep] at hx
          obtain ⟨hx1, ha⟩ := hx
          subst ha
          exact (IH (sizeOf rest) hsr).2 rest le_rfl ctx n _ _ _ hx1


/-- A token the parser may append to `sql`: parenthesis, concatenation
keyword, or a leaf fragment whose column passed the permitted-set check and
whose operator is one of the allowed operators, with a `:v<k>` placeholder. -/
def tokenOK (ctx : FilterCtx) (t : String) : Prop :=
  t = "(" ∨ t = ")" ∨ t = "AND" ∨ t = "OR" ∨
  ∃ (c op : String) (k : Nat), (c = ctx.primary_key ∨ c ∈ ctx.attributes) ∧
    op ∈ OPERATORS ∧ t = "\"" ++ c ++ "\" " ++ op ++ " :v" ++ toString k

/-- The params dict holds keys `v0..v(m-1)` in order, each bound to a value
of one of the allowed scalar types (or null). -/
def paramsOK (ps : List (String × PyVal)) : Prop :=
  ∀ j, j < ps.length → ∃ v, ps[j]? = some ("v" ++ toString j, v) ∧ isValueType v = true

def GoodState (ctx : FilterCtx) (st : PFState) : Prop :=
  (∀ t ∈ st.sql, tokenOK ctx t) ∧ paramsOK st.params

def GoodStep (ctx : FilterCtx) : Except PyExn StepRes → Prop
  | .error _ => True
  | .ok (.stop s) => GoodState ctx s
  | .ok (.cont s _) => GoodState ctx s

def GoodOut (ctx : FilterCtx) : Except PyExn PFState → Prop
  | .error _ => True
  | .ok s => GoodState ctx s

theorem GoodState.addErrGood {ctx : FilterCtx} {st : PFState} (h : GoodState ctx st)
    (m : String) : GoodState ctx (st.addErr m) := h

theorem GoodState.addSqlGood {ctx : FilterCtx} {st : PFState} (h : GoodState ctx st)
    {t : String} (ht : tokenOK ctx t) : GoodState ctx (st.addSql t) := by
  refine ⟨?_, h.2⟩
  intro u hu
  simp only [PFState.addSql, List.mem_append, List.mem_singleton] at hu
  rcases hu with hu | hu
  · exact h.1 u hu
  · rw [hu]; exact ht

theorem paramsOK.push {ps : List (String × PyVal)} (h : paramsOK ps) {w : PyVal}
    (hw : isValueType w = true) :
    paramsOK (ps ++ [("v" ++ toString ps.length, w)]) := by
  intro j hj
  simp only [List.length_append, List.length_singleton] at hj
  by_cases hlt : j < ps.length
  · obtain ⟨v, hv, hvt⟩ := h j hlt
    refine ⟨v, ?_, hvt⟩
    rw [List.getElem?_append, if_pos hlt]
    exact hv
  · have hj2 : j = ps.length := by omega
    subst hj2
    refine ⟨w, ?_, hw⟩
    rw [List.getElem?_append, if_neg (by omega)]
    simp

theorem GoodState.addLeafGood {ctx : FilterCtx} {st : PFState} (h : GoodState ctx st)
    {c op : String} {w : PyVal}
    (hc : c = ctx.primary_key ∨ c ∈ ctx.attributes) (hop : op ∈ OPERATORS)
    (hw : isValueType w = true) : GoodState ctx (st.addLeaf c op w) := by
  refine ⟨?_, ?_⟩
  · intro u hu
    simp only [PFState.addLeaf, List.mem_append, List.mem_singleton] at hu
    rcases hu with hu | hu
    · exact h.1 u hu
    · rw [hu]
      exact Or.inr (Or.inr (Or.inr (Or.inr ⟨c, op, st.params.length, hc, hop, rfl⟩)))
  · exact h.2.push hw

theorem op_rewrite_mem {op : String} (hop : op ∈ OPERATORS) :
    (if op = "=" then "IS" else if op = "!=" then "IS NOT" else op) ∈ OPERATORS := by
  split_ifs <;> first
    | (simp [OPERATORS] at hop ⊢; tauto)
    | simp [OPERATORS] at hop ⊢

set_option maxHeartbeats 2000000 in
theorem parse_good : ∀ k : Nat,
    (∀ e : PyVal, sizeOf e ≤ k → ∀ (ctx : FilterCtx) (n i : Nat) (st : PFState),
      GoodState ctx st → GoodStep ctx (parseFilterEntry ctx n i st e))
    ∧ (∀ xs : List PyVal, sizeOf xs ≤ k → ∀ (ctx : FilterCtx) (n i : Nat) (st : PFState),
      GoodState ctx st → GoodOut ctx (parseFilterEntries ctx xs n i st)) := by
  intro k
  induction k using Nat.strong_induction_on with
  | _ k IH =>
  constructor
  · intro e hsize ctx n i st hgood
    match e with
    | .str s =>
      simp only [parseFilterEntry]
      by_cases h1 : pyUpper s ∉ CONCAT_OPERATORS
      · rw [if_pos h1]
        exact hgood.addErrGood _
      · rw [if_neg h1]
        by_cases h2 : i % 2 ≠ 1 ∨ i = n - 1
        · rw [if_pos h2]
          exact hgood.addErrGood _
        · rw [if_neg h2]
          have hm : pyUpper s ∈ CONCAT_OPERATORS := not_not.mp h1
          have ht : tokenOK ctx (pyUpper s) := by
            simp only [CONCAT_OPERATORS, List.mem_cons, List.mem_singleton,
              List.not_mem_nil, or_false] at hm
            rcases hm with hm | hm <;> (rw [hm]; simp [tokenOK])
          exact hgood.addSqlGood ht
    | .none => exact hgood.addErrGood _
    | .bool b => exact hgood.addErrGood _
    | .int m => exact hgood.addErrGood _
    | .float q => exact hgood.addErrGood _
    | .dict d => exact hgood.addErrGood _
    | .list [] => exact hgood.addErrGood _
    | .list (l0 :: ltl) =>
      have hsl : sizeOf (l0 :: ltl) < k := by
        have h : sizeOf (PyVal.list (l0 :: ltl)) = 1 + sizeOf (l0 :: ltl) := by simp
        omega
      by_cases hl : l0.isList = true
      · simp only [parseFilterEntry]
        rw [if_pos hl]
        have hnested := (IH (sizeOf (l0 :: ltl)) hsl).2 (l0 :: ltl) le_rfl ctx
          ((l0 :: ltl).length) 0 (st.addSql "(") (hgood.addSqlGood (Or.inl rfl))
        rcases hn : parseFilterEntries ctx (l0 :: ltl) ((l0 :: ltl).length) 0 (st.addSql "(")
            with exn | s2 <;> rw [hn] at hnested
        · exact trivial
        · exact hnested.addSqlGood (Or.inr (Or.inl rfl))
      · rcases ltl with _ | ⟨o, ltl2⟩
        · simp only [parseFilterEntry]
          rw [if_neg hl]
          exact hgood.addErrGood _
        rcases ltl2 with _ | ⟨v, ltl3⟩
        · simp only [parseFilterEntry]
          rw [if_neg hl]
          exact hgood.addErrGood _
        rcases ltl3 with _ | ⟨w, ltl4⟩
        · simp only [parseFilterEntry]
          rw [if_neg hl]
          cases l0 with
          | list ls => exact (hl rfl).elim
          | str cn0 =>
            dsimp only
            by_cases hmem : (if pyStartsWithQ cn0 = true then pyDrop1 cn0 else cn0) ≠
                ctx.primary_key ∧
                (if pyStartsWithQ cn0 = true then pyDrop1 cn0 else cn0) ∉ ctx.attributes
            · rw [if_pos hmem]
              by_cases hsoft : pyStartsWithQ cn0 = true
              · rw [if_pos hsoft]
                exact hgood
              · rw [if_neg hsoft]
                exact hgood.addErrGood _
            · rw [if_neg hmem]
              have hc : (if pyStartsWithQ cn0 = true then pyDrop1 cn0 else cn0) =
                  ctx.primary_key ∨
                  (if pyStartsWithQ cn0 = true then pyDrop1 cn0 else cn0) ∈ ctx.attributes := by
                rcases not_and_or.mp hmem with h | h
                · exact Or.inl (not_not.mp h)
                · exact Or.inr (not_not.mp h)
              cases o with
              | str o0 =>
                dsimp only
                by_cases hop : pyStrip (pyUpper o0) ∉ OPERATORS
                · rw [if_pos hop]
                  exact hgood.addErrGood _
                · rw [if_neg hop]
                  have hopm : pyStrip (pyUpper o0) ∈ OPERATORS := not_not.mp hop
                  cases v with
                  | none =>
                    rw [if_neg (by simp [isValueType])]
                    exact hgood.addLeafGood hc (op_rewrite_mem hopm) rfl
                  | bool b =>
                    rw [if_neg (by simp [isValueType])]
                    by_cases hiso : pyStrip (pyUpper o0) = "IS" ∨ pyStrip (pyUpper o0) = "IS NOT"
                    · rw [if_pos hiso]
                      exact hgood.addErrGood _
                    · rw [if_neg hiso]
                      exact hgood.addLeafGood hc hopm rfl
                  | int m =>
                    rw [if_neg (by simp [isValueType])]
                    by_cases hiso : pyStrip (pyUpper o0) = "IS" ∨ pyStrip (pyUpper o0) = "IS NOT"
                    · rw [if_pos hiso]
                      exact hgood.addErrGood _
                    · rw [if_neg hiso]
                      exact hgood.addLeafGood hc hopm rfl
                  | float q =>
                    rw [if_neg (by simp [isValueType])]
                    by_cases hiso : pyStrip (pyUpper o0) = "IS" ∨ pyStrip (pyUpper o0) = "IS NOT"
                    · rw [if_pos hiso]
                      exact hgood.addErrGood _
                    · rw [if_neg hiso]
                      exact hgood.addLeafGood hc hopm rfl
                  | str sv =>
                    rw [if_neg (by simp [isValueType])]
                    by_cases hiso : pyStrip (pyUpper o0) = "IS" ∨ pyStrip (pyUpper o0) = "IS NOT"
                    · rw [if_pos hiso]
                      exact hgood.addErrGood _
                    · rw [if_neg hiso]
                      exact hgood.addLeafGood hc hopm rfl
                  | list vs =>
                    rw [if_pos (by simp [isValueType])]
                    exact hgood.addErrGood _
                  | dict d =>
                    rw [if_pos (by simp [isValueType])]
                    exact hgood.addErrGood _
              | none => exact trivial
              | bool b2 => exact trivial
              | int m2 => exact trivial
              | float q2 => exact trivial
              | dict d2 => exact trivial
              | list os => exact trivial
          | none => exact hgood.addErrGood _
          | bool b0 => exact hgood.addErrGood _
          | int m0 => exact hgood.addErrGood _
          | float q0 => exact hgood.addErrGood _
          | dict d0 => exact hgood.addErrGood _
        · simp only [parseFilterEntry]
          rw [if_neg hl]
          exact hgood.addErrGood _
  · intro xs hsize ctx n i st hgood
    match xs with
    | [] => exact hgood
    | x :: rest =>
      have hsx : sizeOf x < k := by
        have h : sizeOf (x :: rest) = 1 + sizeOf x + sizeOf rest := by simp
        omega
      have hsr : sizeOf rest < k := by
        have h : sizeOf (x :: rest) = 1 + sizeOf x + sizeOf rest := by simp
        omega
      have hx := (IH (sizeOf x) hsx).1 x le_rfl ctx n i st hgood
      simp only [parseFilterEntries]
      rcases hr : parseFilterEntry ctx n i st x with exn | r <;> rw [hr] at hx
      · exact trivial
      · rcases r with s | ⟨s, a⟩
        · exact hx
        · exact (IH (sizeOf rest) hsr).2 rest le_rfl ctx n _ _ hx


/-- Relation between overall `parse_filter` results of the two runs. -/
def SimRes : Except PyExn ParseResult → Except PyExn ParseResult → Prop
  | .error x, .error y => x = y
  | .ok (.perr _), .ok (.perr _) => True
  | .ok .emptyOk, .ok .emptyOk => True
  | .ok (.ok f p), .ok (.ok f1 p1) => f = f1 ∧ p.length = p1.length
  | _, _ => False

theorem isEmpty_congr {α : Type} (a b : List α) (h : a.length = b.length) :
    a.isEmpty = b.isEmpty := by
  cases a <;> cases b <;> simp_all

theorem eraseEntry_cons_nonlist (e0 : PyVal) (tl : List PyVal) (h : e0.isList = false) :
    ∃ tl1, eraseEntry (.list (e0 :: tl)) = .list (e0 :: tl1) := by
  have h1 : ¬ e0.isList = true := by simp [h]
  rcases tl with _ | ⟨o, tl2⟩
  · refine ⟨[], ?_⟩
    simp only [eraseEntry]
    rw [if_neg h1]
  · rcases tl2 with _ | ⟨v, tl3⟩
    · refine ⟨[o], ?_⟩
      simp only [eraseEntry]
      rw [if_neg h1]
    · rcases tl3 with _ | ⟨w, tl4⟩
      · refine ⟨[o, eraseValue v], ?_⟩
        simp only [eraseEntry]
        rw [if_neg h1]
      · refine ⟨o :: v :: w :: tl4, ?_⟩
        simp only [eraseEntry]
        rw [if_neg h1]

/-- The post-processing tail of `parse_filter` applied to related final
states yields related results. -/
theorem simres_post (ctx : FilterCtx) (xs : List PyVal) (n : Nat)
    (hrel : SimOut (parseFilterEntries ctx xs n 0 ⟨[], [], []⟩)
      (parseFilterEntries ctx (eraseEntryList xs) n 0 ⟨[], [], []⟩)) :
    SimRes
      ((parseFilterEntries ctx xs n 0 ⟨[], [], []⟩) >>= (fun st =>
        if ¬ st.errors.isEmpty then pure (.perr (String.intercalate ";" st.errors))
        else if st.sql.isEmpty then pure .emptyOk
        else pure (.ok ("(" ++ String.intercalate " " st.sql ++ ")") st.params)))
      ((parseFilterEntries ctx (eraseEntryList xs) n 0 ⟨[], [], []⟩) >>= (fun st =>
        if ¬ st.errors.isEmpty then pure (.perr (String.intercalate ";" st.errors))
        else if st.sql.isEmpty then pure .emptyOk
        else pure (.ok ("(" ++ String.intercalate " " st.sql ++ ")") st.params))) := by
  rcases h1 : parseFilterEntries ctx xs n 0 ⟨[], [], []⟩ with x | s <;>
    rcases h2 : parseFilterEntries ctx (eraseEntryList xs) n 0 ⟨[], [], []⟩ with y | s1 <;>
    rw [h1, h2] at hrel <;> simp only [SimOut] at hrel <;>
    simp only [bind, Except.bind]
  · subst hrel
    exact rfl
  · obtain ⟨hsql, hpar, herr⟩ := hrel
    have he : s.errors.isEmpty = s1.errors.isEmpty := isEmpty_congr _ _ herr
    have hsq : s.sql.isEmpty = s1.sql.isEmpty := by rw [hsql]
    split_ifs <;>
      first
        | exact trivial
        | exact ⟨by rw [hsql], hpar⟩
        | (exfalso; simp_all)

theorem parse_filter_erase (ctx : FilterCtx) (e : PyVal) :
    SimRes (parse_filter ctx (.decoded e)) (parse_filter ctx (.decoded (eraseEntry e))) := by
  match e with
  | .str s => exact trivial
  | .none => exact trivial
  | .bool b => exact trivial
  | .int m => exact trivial
  | .float q => exact trivial
  | .dict d => exact trivial
  | .list [] => exact rfl
  | .list (e0 :: tl) =>
    by_cases hl : e0.isList = true
    · obtain ⟨xs0, hxs0⟩ := (isList_iff e0).mp hl
      subst hxs0
      have he : eraseEntry (.list (.list xs0 :: tl)) =
          .list (eraseEntry (.list xs0) :: eraseEntryList tl) := rfl
      rw [he]
      have hl1 : (eraseEntry (.list xs0)).isList = true := eraseEntry_list_isList xs0
      simp only [parse_filter, hl, hl1, if_true, ite_true]
      have hlen : (eraseEntry (.list xs0) :: eraseEntryList tl).length =
          (PyVal.list xs0 :: tl).length := by simp [eraseEntryList_length]
      rw [hlen]
      have hrel := (parse_sim (sizeOf (PyVal.list xs0 :: tl))).2 (PyVal.list xs0 :: tl)
        le_rfl ctx ((PyVal.list xs0 :: tl).length) 0 ⟨[], [], []⟩ ⟨[], [], []⟩
        ⟨rfl, rfl, rfl⟩
      exact simres_post ctx (PyVal.list xs0 :: tl) _ hrel
    · have hl0 : e0.isList = false := by simpa using hl
      obtain ⟨tl1, he⟩ := eraseEntry_cons_nonlist e0 tl hl0
      rw [he]
      simp only [parse_filter, hl0, Bool.false_eq_true, if_false, ite_false]
      have hrel := (parse_sim (sizeOf [PyVal.list (e0 :: tl)])).2 [PyVal.list (e0 :: tl)]
        le_rfl ctx 1 0 ⟨[], [], []⟩ ⟨[], [], []⟩ ⟨rfl, rfl, rfl⟩
      have hwrap : eraseEntryList [PyVal.list (e0 :: tl)] = [PyVal.list (e0 :: tl1)] := by
        have h0 : eraseEntryList [PyVal.list (e0 :: tl)] = [eraseEntry (.list (e0 :: tl))] := rfl
        rw [h0, he]
      rw [← hwrap]
      exact simres_post ctx [PyVal.list (e0 :: tl)] _ hrel


theorem parse_post_good (ctx : FilterCtx) (xs : List PyVal) (n : Nat) (f : String)
    (p : List (String × PyVal))
    (h : ((parseFilterEntries ctx xs n 0 ⟨[], [], []⟩) >>=
        (fun st => if ¬ st.errors.isEmpty then
            pure (ParseResult.perr (String.intercalate ";" st.errors))
          else if st.sql.isEmpty then pure ParseResult.emptyOk
          else pure (ParseResult.ok ("(" ++ String.intercalate " " st.sql ++ ")") st.params) :
          PFState → Except PyExn ParseResult))
      = .ok (.ok f p)) :
    (∃ toks, (∀ t ∈ toks, tokenOK ctx t) ∧
      f = "(" ++ String.intercalate " " toks ++ ")") ∧ paramsOK p := by
  have hgood0 : GoodState ctx ⟨[], [], []⟩ := by
    refine ⟨?_, ?_⟩
    · intro t ht
      simp at ht
    · intro j hj
      simp at hj
  have hrun := (parse_good (sizeOf xs)).2 xs le_rfl ctx n 0 ⟨[], [], []⟩ hgood0
  rcases hr : parseFilterEntries ctx xs n 0 ⟨[], [], []⟩ with exn | st <;>
    rw [hr] at hrun h <;> simp only [bind, Except.bind] at h
  · exact absurd h (by simp)
  · split_ifs at h <;> simp [pure, Except.pure] at h
    obtain ⟨hf, hp⟩ := h
    refine ⟨⟨st.sql, hrun.1, hf.symm⟩, ?_⟩
    rw [← hp]
    exact hrun.2


theorem parse_filter_good (ctx : FilterCtx) (e : PyVal) (f : String)
    (p : List (String × PyVal))
    (h : parse_filter ctx (.decoded e) = .ok (.ok f p)) :
    (∃ toks, (∀ t ∈ toks, tokenOK ctx t) ∧
      f = "(" ++ String.intercalate " " toks ++ ")") ∧ paramsOK p := by
  match e with
  | .str s => exact absurd h (by simp [parse_filter])
  | .none => exact absurd h (by simp [parse_filter])
  | .bool b => exact absurd h (by simp [parse_filter])
  | .int m => exact absurd h (by simp [parse_filter])
  | .float q => exact absurd h (by simp [parse_filter])
  | .dict d => exact absurd h (by simp [parse_filter])
  | .list [] => exact absurd h (by simp [parse_filter])
  | .list (e0 :: tl) =>
    by_cases hl : e0.isList = true
    · simp only [parse_filter, hl, if_true, ite_true] at h
      exact parse_post_good ctx (e0 :: tl) _ f p h
    · simp only [parse_filter, hl, Bool.false_eq_true, if_false, ite_false] at h
      exact parse_post_good ctx [PyVal.list (e0 :: tl)] _ f p h

/-- C1 (amended): for every pair of filter expressions identical except for
the leaf values (allowed scalar types), *where corresponding leaf values are
equally null or non-null* (equal erasures), successful parses produce the
identical `sql_fragment` and equally many bound parameters; moreover the
fragment consists solely of parentheses, `AND`/`OR` keywords and leaf tokens
`"column" OP :vK` whose column passed the membership check against the
primary key or the permitted attribute set and whose operator is from the
fixed allowed list — values are never interpolated into it — and the params
map binds exactly the keys `v0..v(m-1)`, in order, each to a value of an
allowed scalar type (or null). -/
theorem C1_injection_safety (ctx : FilterCtx) (e1 e2 : PyVal) (f1 f2 : String)
    (p1 p2 : List (String × PyVal))
    (he : eraseEntry e1 = eraseEntry e2)
    (h1 : parse_filter ctx (.decoded e1) = .ok (.ok f1 p1))
    (h2 : parse_filter ctx (.decoded e2) = .ok (.ok f2 p2)) :
    f1 = f2 ∧ p1.length = p2.length
    ∧ (∃ toks, (∀ t ∈ toks, tokenOK ctx t) ∧
        f1 = "(" ++ String.intercalate " " toks ++ ")")
    ∧ paramsOK p1 := by
  have r1 := parse_filter_erase ctx e1
  have r2 := parse_filter_erase ctx e2
  rw [h1] at r1
  rw [h2, ← he] at r2
  rcases hE : parse_filter ctx (.decoded (eraseEntry e1)) with x | rE <;> rw [hE] at r1 r2
  · exact r1.elim
  · rcases rE with m | _ | ⟨fE, pE⟩
    · exact r1.elim
    · exact r1.elim
    · obtain ⟨hf1, hp1⟩ := r1
      obtain ⟨hf2, hp2⟩ := r2
      have hg := parse_filter_good ctx e1 f1 p1 h1
      exact ⟨hf1.trans hf2.symm, hp1.trans hp2.symm, hg.1, hg.2⟩

/-- C1 (counterexample): the claim quantifies over pairs identical except
for leaf values of the allowed scalar types — which include null.  The
expressions `[["a","=",1]]` and `[["a","=",null]]` differ only in the leaf
value, both parse successfully, yet the null value rewrites the operator, so
the two sql_fragments differ (`=` vs `IS`). -/
theorem C1_counterexample :
    parse_filter ⟨"a", []⟩ (.decoded (.list [.list [.str "a", .str "=", .int 1]])) =
      .ok (.ok "(\"a\" = :v0)" [("v0", .int 1)])
    ∧ parse_filter ⟨"a", []⟩ (.decoded (.list [.list [.str "a", .str "=", PyVal.none]])) =
      .ok (.ok "(\"a\" IS :v0)" [("v0", PyVal.none)])
    ∧ ("(\"a\" = :v0)" : String) ≠ "(\"a\" IS :v0)" := by
  refine ⟨rfl, rfl, by decide⟩

theorem C1_injection_safety_witness :
    ("(\"a\" = :v0)" : String) = "(\"a\" = :v0)"
    ∧ ([("v0", PyVal.int 1)].length = [("v0", PyVal.int 2)].length)
    ∧ (∃ toks, (∀ t ∈ toks, tokenOK ⟨"a", []⟩ t) ∧
        ("(\"a\" = :v0)" : String) = "(" ++ String.intercalate " " toks ++ ")")
    ∧ paramsOK [("v0", PyVal.int 1)] :=
  C1_injection_safety ⟨"a", []⟩ (.list [.list [.str "a", .str "=", .int 1]])
    (.list [.list [.str "a", .str "=", .int 2]]) _ _ _ _ rfl rfl rfl

/-! ### C6: readOnly + required fields in `validate_fields` -/

theorem dictGet_cons (kv : String × PyVal) (d : List (String × PyVal)) (k : String) :
    dictGet (kv :: d) k = if kv.1 = k then Option.some kv.2 else dictGet d k := by
  by_cases h : kv.1 = k <;> simp [dictGet, List.find?, h]

theorem lookupField_cons (a : String) (g : FieldMeta) (rest : List (String × FieldMeta))
    (attr : String) :
    lookupField ((a, g) :: rest) attr =
      if a = attr then Option.some g else lookupField rest attr := by
  by_cases h : a = attr <;> simp [lookupField, List.find?, h]

theorem dictGet_map_set (d : List (String × PyVal)) (k : String) (v : PyVal)
    (k' : String) (h : k' ≠ k) :
    dictGet (d.map (fun kv => if kv.1 = k then (k, v) else kv)) k' = dictGet d k' := by
  induction d with
  | nil => rfl
  | cons kv rest ih =>
    by_cases hk : kv.1 = k
    · rw [List.map_cons, if_pos hk, dictGet_cons, dictGet_cons, hk]
      rw [if_neg (fun he => h he.symm), if_neg (fun he => h he.symm)]
      exact ih
    · rw [List.map_cons, if_neg hk, dictGet_cons, dictGet_cons]
      by_cases hk' : kv.1 = k'
      · rw [if_pos hk', if_pos hk']
      · rw [if_neg hk', if_neg hk']; exact ih

theorem dictGet_append_single (d : List (String × PyVal)) (k : String) (v : PyVal)
    (k' : String) (h : k' ≠ k) :
    dictGet (d ++ [(k, v)]) k' = dictGet d k' := by
  induction d with
  | nil =>
    rw [List.nil_append, dictGet_cons, if_neg (fun he => h he.symm)]
  | cons kv rest ih =>
    rw [List.cons_append, dictGet_cons, dictGet_cons]
    by_cases hk' : kv.1 = k'
    · rw [if_pos hk', if_pos hk']
    · rw [if_neg hk', if_neg hk']; exact ih

theorem dictGet_dictSet_ne (d : List (String × PyVal)) (k : String) (v : PyVal)
    (k' : String) (h : k' ≠ k) :
    dictGet (dictSet d k v) k' = dictGet d k' := by
  unfold dictSet
  by_cases hs : (dictGet d k).isSome
  · rw [if_pos hs]; exact dictGet_map_set d k v k' h
  · rw [if_neg hs]; exact dictGet_append_single d k v k' h

theorem dictGet_filter_self (props : List (String × PyVal)) (attr : String) :
    dictGet (props.filter (fun kv => kv.1 ≠ attr)) attr = Option.none := by
  induction props with
  | nil => rfl
  | cons kv rest ih =>
    by_cases h : kv.1 = attr
    · rw [List.filter_cons, if_neg (by simp [h])]; exact ih
    · rw [List.filter_cons, if_pos (by simp [h]), dictGet_cons, if_neg h]; exact ih

theorem dictGet_filter_none (props : List (String × PyVal))
    (p : String × PyVal → Bool) (attr : String)
    (h : dictGet props attr = Option.none) :
    dictGet (props.filter p) attr = Option.none := by
  induction props with
  | nil => rfl
  | cons kv rest ih =>
    rw [dictGet_cons] at h
    by_cases hk : kv.1 = attr
    · rw [if_pos hk] at h; exact absurd h (by simp)
    · rw [if_neg hk] at h
      rw [List.filter_cons]
      by_cases hp : p kv
      · rw [if_pos (by simp [hp]), dictGet_cons, if_neg hk]; exact ih h
      · rw [if_neg (by simp [hp])]; exact ih h

theorem intifyKey_readOnly (c c' : List (String × PyVal)) (k : String)
    (hk : "readOnly" ≠ k) (h : intifyKey c k = .ok c') :
    dictGet c' "readOnly" = dictGet c "readOnly" := by
  unfold intifyKey at h
  rcases h1 : dictGet c k with _ | v
  · rw [h1] at h; dsimp only at h
    simp only [pure, Except.pure, Except.ok.injEq] at h; subst h; rfl
  · rw [h1] at h; dsimp only at h
    rcases h2 : pyIntOf v with e | m
    · rw [h2] at h; simp [bind, Except.bind] at h
    · rw [h2] at h
      simp only [bind, Except.bind, pure, Except.pure, Except.ok.injEq] at h
      subst h
      exact dictGet_dictSet_ne c k (.int m) "readOnly" hk

theorem bigintConstraints_readOnly (c c' : List (String × PyVal))
    (h : bigintConstraints c = .ok c') :
    dictGet c' "readOnly" = dictGet c "readOnly" := by
  unfold bigintConstraints at h
  rcases h1 : intifyKey c "min" with e | c1
  · rw [h1] at h; simp [bind, Except.bind] at h
  · rw [h1] at h; simp only [bind, Except.bind] at h
    rw [intifyKey_readOnly c1 c' "max" (by decide) h]
    exact intifyKey_readOnly c c1 "min" (by decide) h1

theorem resolveField_readOnly (ctx : ValidateCtx) (fm : FieldMeta) (attr : String)
    (iv : PyVal) (dt : Option String) (cs : List (String × PyVal)) (iv2 : PyVal)
    (h : resolveField ctx fm attr iv = .ok (dt, cs, iv2)) :
    dictGet cs "readOnly" = dictGet fm.constraints "readOnly" := by
  unfold resolveField at h
  dsimp only at h
  split at h
  · rcases h1 : pyFmtD (constraintsGetD fm.constraints "numeric_precision" PyVal.none)
      with e | p
    all_goals rw [h1] at h
    · simp [bind, Except.bind] at h
    · rcases h2 : pyFmtD (constraintsGetD fm.constraints "numeric_scale" PyVal.none)
        with e | s
      all_goals rw [h2] at h
      · simp [bind, Except.bind] at h
      · simp only [bind, Except.bind, pure, Except.pure, Except.ok.injEq,
          Prod.mk.injEq] at h
        obtain ⟨-, h, -⟩ := h; subst h; rfl
  · split at h
    · rcases hb : bigintConstraints fm.constraints with e | c1
      all_goals rw [hb] at h
      · simp [bind, Except.bind] at h
      · simp only [bind, Except.bind, pure, Except.pure, Except.ok.injEq,
          Prod.mk.injEq] at h
        obtain ⟨-, h, -⟩ := h; subst h
        exact bigintConstraints_readOnly fm.constraints c1 hb
    · split at h
      all_goals simp only [pure, Except.pure, Except.ok.injEq, Prod.mk.injEq] at h
      all_goals obtain ⟨-, h, -⟩ := h
      all_goals subst h
      all_goals rfl

theorem checkField_readOnly_eq (ctx : ValidateCtx) (attr : String)
    (dt : Option String) (cs : List (String × PyVal)) (iv : PyVal)
    (h : (constraintsGetD cs "readOnly" (PyVal.bool false)).truthy = true) :
    checkField ctx attr dt cs iv = .ok [] := by
  unfold checkField
  rw [if_pos h]
  rfl

theorem checkMaxlength_heads (attr : String) (cs : List (String × PyVal))
    (value : PyVal) (es : List TrMsg) (h : checkMaxlength attr cs value = .ok es) :
    ∀ m ∈ es, m.args.head? = Option.some attr := by
  unfold checkMaxlength at h
  rcases h1 : getNotNone cs "maxlength" with _ | ml
  · rw [h1] at h; dsimp only at h
    simp only [pure, Except.pure, Except.ok.injEq] at h; subst h; simp
  · rw [h1] at h; dsimp only at h
    rcases h2 : pyIntOf ml with e | m
    · rw [h2] at h; simp [bind, Except.bind] at h
    · rw [h2] at h; simp only [bind, Except.bind] at h
      split at h
      all_goals simp only [pure, Except.pure, Except.ok.injEq] at h
      all_goals subst h
      all_goals simp

theorem checkMin_heads (stf : String → Option Rat) (attr : String)
    (cs : List (String × PyVal)) (value : PyVal) (es : List TrMsg)
    (h : checkMin stf attr cs value = .ok es) :
    ∀ m ∈ es, m.args.head? = Option.some attr := by
  unfold checkMin at h
  rcases h1 : getNotNone cs "min" with _ | mn
  · rw [h1] at h; dsimp only at h
    simp only [pure, Except.pure, Except.ok.injEq] at h; subst h; simp
  · rw [h1] at h; dsimp only at h
    rcases h2 : pyFloatOf stf value with e | x
    · rw [h2] at h; simp [bind, Except.bind] at h
    · rw [h2] at h; simp only [bind, Except.bind] at h
      rcases h3 : ratLtPy x mn with e | lt
      · rw [h3] at h; simp [bind, Except.bind] at h
      · rw [h3] at h; simp only [bind, Except.bind] at h
        split at h
        all_goals simp only [pure, Except.pure, Except.ok.injEq] at h
        all_goals subst h
        all_goals simp

theorem checkMax_heads (stf : String → Option Rat) (attr : String)
    (cs : List (String × PyVal)) (value : PyVal) (es : List TrMsg)
    (h : checkMax stf attr cs value = .ok es) :
    ∀ m ∈ es, m.args.head? = Option.some attr := by
  unfold checkMax at h
  rcases h1 : getNotNone cs "max" with _ | mx
  · rw [h1] at h; dsimp only at h
    simp only [pure, Except.pure, Except.ok.injEq] at h; subst h; simp
  · rw [h1] at h; dsimp only at h
    rcases h2 : pyFloatOf stf value with e | x
    · rw [h2] at h; simp [bind, Except.bind] at h
    · rw [h2] at h; simp only [bind, Except.bind] at h
      rcases h3 : ratGtPy x mx with e | gt
      · rw [h3] at h; simp [bind, Except.bind] at h
      · rw [h3] at h; simp only [bind, Except.bind] at h
        split at h
        all_goals simp only [pure, Except.pure, Except.ok.injEq] at h
        all_goals subst h
        all_goals simp

theorem checkValues_heads (ctx : ValidateCtx) (attr : String)
    (cs : List (String × PyVal)) (value : PyVal) (es : List TrMsg)
    (h : checkValues ctx attr cs value = .ok es) :
    ∀ m ∈ es, m.args.head? = Option.some attr := by
  unfold checkValues at h
  rcases h1 : allowedValuesOf (constraintsGetD cs "values" (.list [])) with e | allowed
  · rw [h1] at h; simp [bind, Except.bind] at h
  · rw [h1] at h; simp only [bind, Except.bind] at h
    split at h
    · split at h
      · rcases h2 : ctx.literalEval value with _ | elems
        · rw [h2] at h; dsimp only at h
          simp only [pure, Except.pure, Except.ok.injEq] at h; subst h; simp
        · rw [h2] at h; dsimp only at h
          simp only [pure, Except.pure, Except.ok.injEq] at h; subst h
          intro m hm
          rw [List.mem_filterMap] at hm
          obtain ⟨el, -, hel⟩ := hm
          by_cases hmem : el.pyStr ∈ allowed
          · rw [if_pos hmem] at hel; exact absurd hel (by simp)
          · rw [if_neg hmem] at hel
            simp only [Option.some.injEq] at hel; subst hel; rfl
      · split at h
        all_goals simp only [pure, Except.pure, Except.ok.injEq] at h
        all_goals subst h
        all_goals simp
    · simp only [pure, Except.pure, Except.ok.injEq] at h; subst h; simp

theorem checkConstraints_heads (ctx : ValidateCtx) (attr : String)
    (dt : Option String) (cs : List (String × PyVal)) (ivv value : PyVal)
    (es : List TrMsg) (h : checkConstraints ctx attr dt cs ivv value = .ok es) :
    ∀ m ∈ es, m.args.head? = Option.some attr := by
  unfold checkConstraints at h
  split at h
  · simp only [pure, Except.pure, Except.ok.injEq] at h; subst h; simp
  · rcases h1 : checkMaxlength attr cs value with e | e1
    · rw [h1] at h; simp [bind, Except.bind] at h
    · rw [h1] at h; simp only [bind, Except.bind] at h
      rcases h2 : checkMin ctx.strToFloat attr cs value with e | e2
      · rw [h2] at h; simp [bind, Except.bind] at h
      · rw [h2] at h; simp only [bind, Except.bind] at h
        rcases h3 : checkMax ctx.strToFloat attr cs value with e | e3
        · rw [h3] at h; simp [bind, Except.bind] at h
        · rw [h3] at h; simp only [bind, Except.bind] at h
          rcases h4 : checkValues ctx attr cs value with e | e4
          · rw [h4] at h; simp [bind, Except.bind] at h
          · rw [h4] at h
            simp only [bind, Except.bind, pure, Except.pure, Except.ok.injEq] at h
            subst h
            intro m hm
            rcases List.mem_append.mp hm with hm' | hm4
            · rcases List.mem_append.mp hm' with hm'' | hm3
              · rcases List.mem_append.mp hm'' with hm1 | hm2
                · exact checkMaxlength_heads attr cs value e1 h1 m hm1
                · exact checkMin_heads ctx.strToFloat attr cs value e2 h2 m hm2
              · exact checkMax_heads ctx.strToFloat attr cs value e3 h3 m hm3
            · exact checkValues_heads ctx attr cs value e4 h4 m hm4

theorem checkField_heads (ctx : ValidateCtx) (attr : String) (dt : Option String)
    (cs : List (String × PyVal)) (iv : PyVal) (es : List TrMsg)
    (h : checkField ctx attr dt cs iv = .ok es) :
    ∀ m ∈ es, m.args.head? = Option.some attr := by
  unfold checkField at h
  split at h
  · simp only [pure, Except.pure, Except.ok.injEq] at h; subst h; simp
  · rcases hc : ctx.cast (dataTypeStr dt) iv with u | value
    · rcases u
      rw [hc] at h; dsimp only at h
      simp only [pure, Except.pure, Except.ok.injEq] at h; subst h; simp
    · rw [hc] at h; dsimp only at h
      split at h
      · simp only [pure, Except.pure, Except.ok.injEq] at h; subst h; simp
      · exact checkConstraints_heads ctx attr dt cs iv value es h

theorem validate_field_heads (ctx : ValidateCtx) (fm : FieldMeta) (attr : String)
    (iv : PyVal) (es : List TrMsg) (h : validate_field ctx fm attr iv = .ok es) :
    ∀ m ∈ es, m.args.head? = Option.some attr := by
  unfold validate_field at h
  rcases hr : resolveField ctx fm attr iv with e | ⟨dt, cs, iv2⟩
  · rw [hr] at h; simp [bind, Except.bind] at h
  · rw [hr] at h; simp only [bind, Except.bind] at h
    exact checkField_heads ctx attr dt cs iv2 es h

theorem validate_field_readOnly (ctx : ValidateCtx) (fm : FieldMeta) (attr : String)
    (iv : PyVal) (es : List TrMsg)
    (hro : (constraintsGetD fm.constraints "readOnly" (PyVal.bool false)).truthy = true)
    (h : validate_field ctx fm attr iv = .ok es) : es = [] := by
  unfold validate_field at h
  rcases hr : resolveField ctx fm attr iv with e | ⟨dt, cs, iv2⟩
  · rw [hr] at h; simp [bind, Except.bind] at h
  · rw [hr] at h; simp only [bind, Except.bind] at h
    have hcs := resolveField_readOnly ctx fm attr iv dt cs iv2 hr
    have hro' : (constraintsGetD cs "readOnly" (PyVal.bool false)).truthy = true := by
      unfold constraintsGetD
      rw [hcs]
      exact hro
    rw [checkField_readOnly_eq ctx attr dt cs iv2 hro'] at h
    simp only [Except.ok.injEq] at h
    exact h.symm

theorem validateFieldsLoop_no_attr (ctx : ValidateCtx)
    (fields : List (String × FieldMeta)) (attr : String) (fm : FieldMeta)
    (hf : lookupField fields attr = Option.some fm)
    (hro : (constraintsGetD fm.constraints "readOnly" (PyVal.bool false)).truthy = true) :
    ∀ (props : List (String × PyVal)) (es : List TrMsg),
      validateFieldsLoop ctx fields props = .ok es →
      ∀ m ∈ es, m.args.head? ≠ Option.some attr := by
  intro props
  induction props with
  | nil =>
    intro es h m hm
    simp only [validateFieldsLoop, pure, Except.pure, Except.ok.injEq] at h
    subst h; simp at hm
  | cons kv rest ih =>
    intro es h m hm
    obtain ⟨a, iv⟩ := kv
    unfold validateFieldsLoop at h
    rcases hv : validate_field ctx ((lookupField fields a).getD emptyFieldMeta) a iv
      with e | es1
    · rw [hv] at h; simp [bind, Except.bind] at h
    · rw [hv] at h; simp only [bind, Except.bind] at h
      rcases hrest : validateFieldsLoop ctx fields rest with e | es2
      · rw [hrest] at h; simp [bind, Except.bind] at h
      · rw [hrest] at h
        simp only [bind, Except.bind, pure, Except.pure, Except.ok.injEq] at h
        subst h
        rcases List.mem_append.mp hm with hm1 | hm2
        · by_cases ha : a = attr
          · subst ha
            rw [hf] at hv
            simp only [Option.getD_some] at hv
            have hempty := validate_field_readOnly ctx fm a iv es1 hro hv
            subst hempty
            simp at hm1
          · have hhead := validate_field_heads ctx
              ((lookupField fields a).getD emptyFieldMeta) a iv es1 hv m hm1
            rw [hhead]
            intro hEq
            exact ha (Option.some.inj hEq)
        · exact ih es2 hrest m hm2

theorem lookupField_mem (fields : List (String × FieldMeta)) (attr : String)
    (fm : FieldMeta) (h : lookupField fields attr = Option.some fm) :
    (attr, fm) ∈ fields := by
  induction fields with
  | nil => simp [lookupField] at h
  | cons kv rest ih =>
    obtain ⟨a, g⟩ := kv
    rw [lookupField_cons] at h
    by_cases ha : a = attr
    · rw [if_pos ha] at h
      simp only [Option.some.injEq] at h
      subst h; subst ha
      exact List.mem_cons_self _ _
    · rw [if_neg ha] at h
      exact List.mem_cons_of_mem _ (ih h)

theorem lookupField_unique (fields : List (String × FieldMeta)) (attr : String)
    (fm : FieldMeta) (hnd : (fields.map Prod.fst).Nodup)
    (hf : lookupField fields attr = Option.some fm) :
    ∀ fm', (attr, fm') ∈ fields → fm' = fm := by
  induction fields with
  | nil => simp [lookupField] at hf
  | cons kv rest ih =>
    obtain ⟨a, g⟩ := kv
    intro fm' hmem
    rw [List.map_cons, List.nodup_cons] at hnd
    rw [lookupField_cons] at hf
    rcases List.mem_cons.mp hmem with he | ht
    · obtain ⟨h1, h2⟩ := Prod.mk.injEq .. ▸ he
      subst h1; subst h2
      rw [if_pos rfl] at hf
      exact Option.some.inj hf
    · by_cases ha : a = attr
      · exfalso
        subst ha
        have hmm : (a, fm').1 ∈ rest.map Prod.fst := List.mem_map_of_mem Prod.fst ht
        exact hnd.1 hmm
      · rw [if_neg ha] at hf
        exact ih hnd.2 hf fm' ht

theorem requiredCheck_heads (a : String) (props : List (String × PyVal)) :
    ∀ m ∈ requiredCheck a props, m.args.head? = Option.some a := by
  unfold requiredCheck
  rcases hd : dictGet props a with _ | v
  · simp
  · rcases v with _ | b | n | q | s | xs | d
    · simp
    · simp
    · simp
    · simp
    · dsimp only
      split_ifs <;> simp
    · simp
    · simp

theorem removalLoop_attr (attr : String) (fm : FieldMeta)
    (hro : (constraintsGetD fm.constraints "readOnly" (PyVal.bool false)).truthy = true) :
    ∀ (fl : List (String × FieldMeta)) (props : List (String × PyVal))
      (errs : List TrMsg),
      (∀ fm', (attr, fm') ∈ fl → fm' = fm) →
      (∀ m ∈ errs, m.args.head? ≠ Option.some attr) →
      (∀ m ∈ (removalLoop fl props errs).2, m.args.head? ≠ Option.some attr) ∧
        (((attr, fm) ∈ fl ∨ dictGet props attr = Option.none) →
          dictGet (removalLoop fl props errs).1 attr = Option.none) := by
  intro fl
  induction fl with
  | nil =>
    intro props errs _ herrs
    refine ⟨herrs, ?_⟩
    rintro (hmem | hnone)
    · simp at hmem
    · exact hnone
  | cons kv rest ih =>
    intro props errs hkeys herrs
    obtain ⟨a, g⟩ := kv
    have hkeys' : ∀ fm', (attr, fm') ∈ rest → fm' = fm :=
      fun fm' hm => hkeys fm' (List.mem_cons_of_mem _ hm)
    by_cases ha : a = attr
    · subst ha
      have hg : g = fm := hkeys g (List.mem_cons_self _ _)
      subst hg
      simp only [removalLoop]
      rw [if_pos (Or.inl hro)]
      obtain ⟨ih1, ih2⟩ := ih (props.filter (fun kv => kv.1 ≠ a)) errs hkeys' herrs
      exact ⟨ih1, fun _ => ih2 (Or.inr (dictGet_filter_self props a))⟩
    · have hshift : (attr, fm) ∈ (a, g) :: rest → (attr, fm) ∈ rest := by
        intro hmem
        rcases List.mem_cons.mp hmem with he | ht
        · exact absurd (congrArg Prod.fst he) (fun hh => ha hh.symm)
        · exact ht
      have hstep : ∀ (props2 : List (String × PyVal)) (errs2 : List TrMsg),
          (∀ m ∈ errs2, m.args.head? ≠ Option.some attr) →
          (dictGet props attr = Option.none → dictGet props2 attr = Option.none) →
          (∀ m ∈ (removalLoop rest props2 errs2).2, m.args.head? ≠ Option.some attr) ∧
            (((attr, fm) ∈ (a, g) :: rest ∨ dictGet props attr = Option.none) →
              dictGet (removalLoop rest props2 errs2).1 attr = Option.none) := by
        intro props2 errs2 he2 hp2
        obtain ⟨ih1, ih2⟩ := ih props2 errs2 hkeys' he2
        refine ⟨ih1, ?_⟩
        rintro (hmem | hnone)
        · exact ih2 (Or.inl (hshift hmem))
        · exact ih2 (Or.inr (hp2 hnone))
      have hext : ∀ m ∈ errs ++ requiredCheck a props,
          m.args.head? ≠ Option.some attr := by
        intro m hm
        rcases List.mem_append.mp hm with h1 | h2
        · exact herrs m h1
        · rw [requiredCheck_heads a props m h2]
          intro he
          exact ha (Option.some.inj he)
      simp only [removalLoop]
      split_ifs with hb1 hb2
      · exact hstep _ _ herrs (fun h => dictGet_filter_none props _ attr h)
      · exact hstep _ _ hext (fun h => h)
      · exact hstep _ _ herrs (fun h => h)

/-- C6: for every field whose constraints mark it both `required` and
`readOnly` (with `fields` a dict, i.e. unique keys), a successful
`validate_fields` run (1) reports no error naming that field — in
particular no missing-required-value or blank-value error, since every
emitted message carries the field name as its first `%`-argument; (2) skips
the field entirely during type/constraint checking (the per-property pass
contributes no errors for it, whatever the submitted value); and (3) leaves
the field absent from the returned `feature['properties']`, removing it
whenever present. -/
theorem C6_readonly_required (ctx : ValidateCtx) (fields : List (String × FieldMeta))
    (props : List (String × PyVal)) (attr : String) (fm : FieldMeta)
    (errs : List TrMsg) (props2 : List (String × PyVal))
    (hnd : (fields.map Prod.fst).Nodup)
    (hf : lookupField fields attr = Option.some fm)
    (hro : (constraintsGetD fm.constraints "readOnly" (PyVal.bool false)).truthy = true)
    (_hreq : (constraintsGetD fm.constraints "required" (PyVal.bool false)).truthy = true)
    (hrun : validate_fields ctx fields props = .ok (errs, props2)) :
    (∀ m ∈ errs, m.args.head? ≠ Option.some attr) ∧
      (∀ iv es, validate_field ctx fm attr iv = .ok es → es = []) ∧
      dictGet props2 attr = Option.none := by
  unfold validate_fields at hrun
  have hne : fields.isEmpty = false := by
    rcases fields with _ | ⟨kv, rest⟩
    · simp [lookupField] at hf
    · rfl
  rw [if_neg (by simp [hne])] at hrun
  rcases hloop : validateFieldsLoop ctx fields props with e | errs1
  · rw [hloop] at hrun; simp [bind, Except.bind] at hrun
  · rw [hloop] at hrun; simp only [bind, Except.bind] at hrun
    rcases hrem : removalLoop fields props errs1 with ⟨p2, e2⟩
    rw [hrem] at hrun
    dsimp only at hrun
    simp only [pure, Except.pure, Except.ok.injEq, Prod.mk.injEq] at hrun
    obtain ⟨hE, hP⟩ := hrun
    have herrs1 := validateFieldsLoop_no_attr ctx fields attr fm hf hro props errs1 hloop
    have huniq := lookupField_unique fields attr fm hnd hf
    obtain ⟨h1, h2⟩ := removalLoop_attr attr fm hro fields props errs1 huniq herrs1
    rw [hrem] at h1 h2
    subst hE
    subst hP
    exact ⟨h1, fun iv es h => validate_field_readOnly ctx fm attr iv es hro h,
      h2 (Or.inl (lookupField_mem fields attr fm hf))⟩

/-- Concrete `fields` metadata for the C6 witness: one field that is both
read-only and required. -/
def c6fields : List (String × FieldMeta) :=
  [("locked", ⟨Option.some "text",
      [("readOnly", PyVal.bool true), ("required", PyVal.bool true)], Option.none⟩)]

/-- Concrete oracle environment for the C6 witness: the DB cast echoes the
value, there are no user-defined types and no string parses. -/
def c6ctx : ValidateCtx :=
  ⟨fun _ v => .ok v, fun _ => Option.none, fun v => v.pyStr,
   fun _ => Option.none, fun _ => Option.none⟩

theorem C6_readonly_required_witness :
    (∀ m ∈ ([] : List TrMsg), m.args.head? ≠ Option.some "locked") ∧
      (∀ iv es, validate_field c6ctx
          ⟨Option.some "text",
            [("readOnly", PyVal.bool true), ("required", PyVal.bool true)],
            Option.none⟩ "locked" iv = .ok es → es = []) ∧
      dictGet ([] : List (String × PyVal)) "locked" = Option.none :=
  C6_readonly_required c6ctx c6fields [("locked", PyVal.str "x")] "locked"
    ⟨Option.some "text",
      [("readOnly", PyVal.bool true), ("required", PyVal.bool true)], Option.none⟩
    [] [] (by simp [c6fields]) rfl rfl rfl rfl
